import Mathlib

/-!
Shallow embedding of the v3→v4 ontology-migration engine
(`src/migrations/v3_to_v4.py`) of the Actions Vocabulary repository,
together with proofs checking the natural-language specification against it.

Modelling conventions:
* RDF terms (rdflib `URIRef` / `Literal`) are the inductive `Term`; the
  datatype/language tag of a literal plays no role in the migration logic and
  is not modelled.  `Term.strVal` is Python `str(term)` (for a literal, its
  lexical form).
* An rdflib `Graph` is a list of triples with set semantics: `addT` inserts a
  triple only if absent, matching `Graph.add`; `len(g)` is `List.length` of a
  duplicate-free list.  Read access (`objects`, `predicate_objects`,
  `subjects`) filters the list in order; rdflib iteration order is
  unspecified, which claim C7 addresses by quantifying over any two
  membership-equal source graphs.
* Python `str.replace("/v3#", "/v4#")` (replace every non-overlapping
  occurrence, scanning left to right) is the structural function `swapV3V4`,
  specialised to the one pattern the code uses.  A single-character
  `str.replace` is the character map `replaceChar`.
* Python `str.lower` / `str.strip` are modelled on ASCII (`Char.toLower`,
  `stripWs`); all vocabulary data in the repository is ASCII.
* `g_v4.bind(...)` namespace-prefix registrations only affect Turtle
  serialisation, not the triple set, and are not modelled.
-/

/-- Prefix test on character lists (model of Python `str.startswith`, also
used to state what `str.replace` scans for). -/
def isPre : List Char → List Char → Bool
  | [], _ => true
  | a :: as, bs =>
    match bs with
    | [] => false
    | b :: bs' => a == b && isPre as bs'

/-- ASCII whitespace recognised by the model of Python `str.strip`. -/
def wsChar (c : Char) : Bool :=
  c = ' ' || c = '\t' || c = '\n' || c = '\x0d' || c = '\x0b' || c = '\x0c'

/-- Model of Python `str.strip()`: drop whitespace from both ends. -/
def stripWs (s : List Char) : List Char :=
  ((s.dropWhile wsChar).reverse.dropWhile wsChar).reverse

/-- Model of a single-character Python `str.replace(a, b)` (with `a`, `b`
single characters): occurrences are single characters, so the scan is a map. -/
def replaceChar (a b : Char) (s : List Char) : List Char :=
  s.map (fun c => if c = a then b else c)

/-- Model of Python `str.replace("/v3#", "/v4#")`: replace every
non-overlapping occurrence of `/v3#` by `/v4#`, scanning left to right. -/
def swapV3V4 : List Char → List Char
  | '/' :: 'v' :: '3' :: '#' :: rest => '/' :: 'v' :: '4' :: '#' :: swapV3V4 rest
  | c :: rest => c :: swapV3V4 rest
  | [] => []

/-- The versioned-namespace marker `/v3#` searched for by the rewriter. -/
def patV3 : List Char := ['/', 'v', '3', '#']

/-- The replacement marker `/v4#`. -/
def patV4 : List Char := ['/', 'v', '4', '#']

/-- Substring test (used only in specification statements). -/
def hasSubstr (pat : List Char) : List Char → Bool
  | [] => pat.isEmpty
  | c :: cs => isPre pat (c :: cs) || hasSubstr pat cs

/-- Python `s.split("#")[-1]`: the segment after the last `#`
(the whole string when no `#` occurs). -/
def lastSplitHash (s : List Char) : List Char :=
  s.foldl (fun acc c => if c = '#' then [] else acc ++ [c]) []

/-- An RDF term: an IRI or a literal, carrying its Python `str()` form. -/
inductive Term where
  | iri (value : List Char)
  | lit (value : List Char)
deriving DecidableEq, Repr

/-- Python `str(term)`. -/
def Term.strVal : Term → List Char
  | .iri s => s
  | .lit s => s

/-- Whether a term is an IRI (RDF predicates are always IRIs; hypotheses of
well-formedness use this). -/
def Term.isIRI : Term → Bool
  | .iri _ => true
  | .lit _ => false

/-- An RDF triple. -/
structure Triple where
  s : Term
  p : Term
  o : Term
deriving DecidableEq, Repr

/-- An rdflib graph, as a duplicate-free list of triples. -/
abbrev Graph := List Triple

/-- `Graph.add`: insert a triple unless already present (set semantics). -/
def addT (g : Graph) (t : Triple) : Graph :=
  if t ∈ g then g else g ++ [t]

/-- A run of `Graph.add` calls, one per listed triple. -/
def addAll (g : Graph) (ts : List Triple) : Graph :=
  ts.foldl addT g

/-- rdflib `g += h`: add every triple of `h` into `g`. -/
def unionG (g h : Graph) : Graph :=
  addAll g h

/-- rdflib `g.objects(s, p)`. -/
def objects (g : Graph) (s p : Term) : List Term :=
  (g.filter (fun t => t.s == s && t.p == p)).map (fun t => t.o)

/-- rdflib `g.predicate_objects(s)`. -/
def predicate_objects (g : Graph) (s : Term) : List (Term × Term) :=
  (g.filter (fun t => t.s == s)).map (fun t => (t.p, t.o))

/-- rdflib `g.subjects(p, o)`. -/
def subjects (g : Graph) (p o : Term) : List Term :=
  (g.filter (fun t => t.p == p && t.o == o)).map (fun t => t.s)

/-- Namespace string of the source vocabulary (`V3` in the script). -/
def v3ns : List Char := "https://clearhead.us/vocab/actions/v3#".data

/-- Namespace string of the target vocabulary (`V4` in the script). -/
def v4ns : List Char := "https://clearhead.us/vocab/actions/v4#".data

/-- A term of the source vocabulary namespace, `V3.name` in the script. -/
def V3 (name : String) : Term := .iri (v3ns ++ name.data)

/-- A term of the target vocabulary namespace, `V4.name` in the script. -/
def V4 (name : String) : Term := .iri (v4ns ++ name.data)

/-- A term of the Common Core Ontologies namespace, `CCO.name` in the script. -/
def CCO (name : String) : Term :=
  .iri ("https://www.commoncoreontologies.org/".data ++ name.data)

/-- The generic type-assertion predicate `rdf:type` (`RDF.type`). -/
def RDF_type : Term :=
  .iri "http://www.w3.org/1999/02/22-rdf-syntax-ns#type".data

/-- The label predicate `rdfs:label` (`RDFS.label`). -/
def RDFS_label : Term :=
  .iri "http://www.w3.org/2000/01/rdf-schema#label".data

/-- The static property rename table `PROPERTY_MAP` of the script,
in source order. -/
def PROPERTY_MAP : List (Term × Term) :=
  [(V3 "hasPriority", V4 "hasPriority"),
   (V3 "hasUUID", V4 "hasUUID"),
   (V3 "hasDoDateTime", V4 "hasDoDateTime"),
   (V3 "hasDueDateTime", V4 "hasDueDateTime"),
   (V3 "hasDurationMinutes", V4 "hasDurationMinutes"),
   (V3 "hasRecurrenceFrequency", V4 "hasRecurrenceFrequency"),
   (V3 "hasRecurrenceInterval", V4 "hasRecurrenceInterval"),
   (V3 "hasRecurrenceUntil", V4 "hasRecurrenceUntil"),
   (V3 "hasRecurrenceCount", V4 "hasRecurrenceCount"),
   (V3 "byDay", V4 "byDay"),
   (V3 "byMonth", V4 "byMonth"),
   (V3 "byMonthDay", V4 "byMonthDay"),
   (V3 "assignedToAgent", V4 "assignedToAgent"),
   (V3 "performedBy", V4 "performedBy"),
   (V3 "hasCompletedDateTime", V4 "hasCompletedDateTime"),
   (V3 "hasDepth", V4 "hasDepth")]

/-- Python `PROPERTY_MAP[p]` when `p in PROPERTY_MAP`, else `none`. -/
def lookupMap : List (Term × Term) → Term → Option Term
  | [], _ => none
  | (k, v) :: rest, p => if p = k then some v else lookupMap rest p

/-- `get_v4_iri`: convert a V3 IRI to V4 by substring replacement
(`URIRef(str(v3_iri).replace("/v3#", "/v4#"))`). -/
def get_v4_iri (t : Term) : Term :=
  .iri (swapV3V4 t.strVal)

/-- The triples that one iteration of the `migrate_properties` loop adds for a
`(predicate, object)` pair taken at the source subject: honour the caller's
skip-list, then the rename table (`if mapped_p:` — rdflib terms are falsy only
when their string is empty), then the `rdf:type` skip, then the V3-namespace
fallback rewrite, else copy unchanged. -/
def map_pair (s4 : Term) (skip : List Term) (p o : Term) : List Triple :=
  if p ∈ skip then []
  else
    match lookupMap PROPERTY_MAP p with
    | some mp => if mp.strVal ≠ [] then [⟨s4, mp, o⟩] else []
    | none =>
      if p = RDF_type then []
      else if isPre v3ns p.strVal then [⟨s4, get_v4_iri p, o⟩]
      else [⟨s4, p, o⟩]

/-- `migrate_properties`: copy and map properties from the v3 subject to the
v4 subject, accumulating into the caller-supplied output graph. -/
def migrate_properties (g_v4 : Graph) (subject_v4 : Term) (g_v3 : Graph)
    (subject_v3 : Term) (skip_props : List Term) : Graph :=
  (predicate_objects g_v3 subject_v3).foldl
    (fun g po => addAll g (map_pair subject_v4 skip_props po.1 po.2)) g_v4

/-- The slug normalisation applied to a project label:
`str(x).lower().strip().replace(" ", "_").replace("/", "_").replace("\\", "_")`. -/
def safe_name (s : List Char) : List Char :=
  replaceChar '\\' '_'
    (replaceChar '/' '_' (replaceChar ' ' '_' (stripWs (s.map Char.toLower))))

/-- The synthesised Objective identifier `urn:objective:<slug>`. -/
def objective_iri (s : List Char) : Term :=
  .iri ("urn:objective:".data ++ safe_name s)

/-- The skip-list `special_props` of `migrate_action_plan`. -/
def plan_special_props : List Term :=
  [V3 "parentAction", V3 "hasProject", V3 "requiresContext", V3 "hasContext",
   RDF_type]

/-- The three triples one iteration of the project loop of
`migrate_action_plan` adds for a project-label value. -/
def projectTriples (plan4 proj : Term) : List Triple :=
  [⟨objective_iri proj.strVal, RDF_type, CCO "ont00000476"⟩,
   ⟨objective_iri proj.strVal, RDFS_label, .lit proj.strVal⟩,
   ⟨plan4, V4 "hasObjective", objective_iri proj.strVal⟩]

/-- The triples one iteration of the context loop of `migrate_action_plan`
adds for a context candidate `ctx`: dispatch on the declared context kind
(Location, then Tool, then Social, then Energy), linking to each wrapped
resource when one exists and otherwise to the rewritten context itself. -/
def ctxTriples (g_v3 : Graph) (plan4 ctx : Term) : List Triple :=
  let ctx_types := objects g_v3 ctx RDF_type
  if V3 "LocationContext" ∈ ctx_types then
    let facilities := objects g_v3 ctx (V3 "requiresFacility")
    if facilities ≠ [] then
      facilities.map (fun f => ⟨plan4, V4 "requiresFacility", f⟩)
    else
      [⟨plan4, V4 "requiresFacility", get_v4_iri ctx⟩]
  else if V3 "ToolContext" ∈ ctx_types then
    let artifacts := objects g_v3 ctx (V3 "requiresArtifact")
    if artifacts ≠ [] then
      artifacts.map (fun a => ⟨plan4, V4 "requiresArtifact", a⟩)
    else
      [⟨plan4, V4 "requiresArtifact", get_v4_iri ctx⟩]
  else if V3 "SocialContext" ∈ ctx_types then
    let agents := objects g_v3 ctx (V3 "requiresAgent")
    if agents ≠ [] then
      agents.map (fun a => ⟨plan4, V4 "requiresAgent", a⟩)
    else
      [⟨plan4, V4 "requiresAgent", get_v4_iri ctx⟩]
  else if V3 "EnergyContext" ∈ ctx_types then
    [⟨plan4, V4 "requiresEnergyContext", get_v4_iri ctx⟩]
  else []

/-- `migrate_action_plan`: migrate a v3 ActionPlan to a v4 CCO Plan. -/
def migrate_action_plan (g_v3 : Graph) (plan_iri_v3 : Term) : Graph :=
  let plan4 := get_v4_iri plan_iri_v3
  let g := addT [] ⟨plan4, RDF_type, CCO "ont00000974"⟩
  let g := migrate_properties g plan4 g_v3 plan_iri_v3 plan_special_props
  let g := addAll g ((objects g_v3 plan_iri_v3 (V3 "parentAction")).map
    (fun parent => ⟨plan4, V4 "partOf", get_v4_iri parent⟩))
  let g := (objects g_v3 plan_iri_v3 (V3 "hasProject")).foldl
    (fun g pr => addAll g (projectTriples plan4 pr)) g
  let contexts := objects g_v3 plan_iri_v3 (V3 "requiresContext") ++
    objects g_v3 plan_iri_v3 (V3 "hasContext")
  contexts.foldl (fun g c => addAll g (ctxTriples g_v3 plan4 c)) g

/-- The `hasState → hasPhase` conversion of `migrate_action_process`:
rewrite the state identifier into v4, take its local name after the last `#`,
and rebuild it inside the v4 namespace. -/
def statePhaseTriple (proc4 o : Term) : Triple :=
  ⟨proc4, V4 "hasPhase", .iri (v4ns ++ lastSplitHash (swapV3V4 o.strVal))⟩

/-- The triples one iteration of the second loop of `migrate_action_process`
adds for a `(predicate, object)` pair: the phase conversion for `hasState`,
the deliberately inverted `prescribes` triple for `prescribedBy`,
nothing otherwise. -/
def processStateTriples (proc4 : Term) (p o : Term) : List Triple :=
  if p = V3 "hasState" then [statePhaseTriple proc4 o]
  else if p = V3 "prescribedBy" then [⟨get_v4_iri o, V4 "prescribes", proc4⟩]
  else []

/-- `migrate_action_process`: migrate a v3 ActionProcess to a v4 CCO
PlannedAct. -/
def migrate_action_process (g_v3 : Graph) (process_iri_v3 : Term) : Graph :=
  let proc4 := get_v4_iri process_iri_v3
  let g := addT [] ⟨proc4, RDF_type, CCO "ont00000228"⟩
  let g := migrate_properties g proc4 g_v3 process_iri_v3
    [V3 "hasState", V3 "prescribedBy", RDF_type]
  (predicate_objects g_v3 process_iri_v3).foldl
    (fun g po => addAll g (processStateTriples proc4 po.1 po.2)) g

/-- `migrate_milestone`: migrate a v3 Milestone to the v4 Milestone class and
link each project label via `marksProgressToward`. -/
def migrate_milestone (g_v3 : Graph) (milestone_iri_v3 : Term) : Graph :=
  let ms4 := get_v4_iri milestone_iri_v3
  let g := addT [] ⟨ms4, RDF_type, V4 "Milestone"⟩
  let g := migrate_properties g ms4 g_v3 milestone_iri_v3
    [V3 "parentAction", RDF_type, V3 "hasProject"]
  (objects g_v3 milestone_iri_v3 (V3 "hasProject")).foldl
    (fun g pr =>
      addT g ⟨ms4, V4 "marksProgressToward", objective_iri pr.strVal⟩) g

/-- The migrated class of a context entity, resolved from the old type tag
(the `new_type` elif chain of `migrate_context_entity`). -/
def ctxNewType (ctx_types : List Term) : Option Term :=
  if V3 "EnergyContext" ∈ ctx_types then some (V4 "EnergyContext")
  else if V3 "LocationContext" ∈ ctx_types then some (CCO "ont00000192")
  else if V3 "ToolContext" ∈ ctx_types then some (CCO "ont00000001")
  else if V3 "SocialContext" ∈ ctx_types then some (CCO "ont00000374")
  else none

/-- `migrate_context_entity`: migrate a context entity, or `none` when no
recognised context kind is present. -/
def migrate_context_entity (g_v3 : Graph) (ctx_iri_v3 : Term) : Option Graph :=
  let ctx4 := get_v4_iri ctx_iri_v3
  match ctxNewType (objects g_v3 ctx_iri_v3 RDF_type) with
  | some nt =>
      let g := addT [] ⟨ctx4, RDF_type, nt⟩
      some (migrate_properties g ctx4 g_v3 ctx_iri_v3
        [V3 "requiresFacility", V3 "requiresArtifact", V3 "requiresAgent",
         RDF_type])
  | none => none

/-- One step of the context phase of `full_migration`:
`res = migrate_context_entity(g_v3, ctx); if res: g_v4 += res`
(an rdflib graph is falsy when empty, so skipping a falsy `res` and adding
nothing are the same accumulator). -/
def addCtxEntity (g_v3 : Graph) (g : Graph) (ctx : Term) : Graph :=
  match migrate_context_entity g_v3 ctx with
  | some res => unionG g res
  | none => g

/-- The four Plan-kind classes enumerated by the orchestrator. -/
def plan_subclasses : List Term :=
  [V3 "ActionPlan", V3 "RootActionPlan", V3 "ChildActionPlan",
   V3 "LeafActionPlan"]

/-- The four context classes enumerated by the orchestrator. -/
def context_classes : List Term :=
  [V3 "EnergyContext", V3 "LocationContext", V3 "ToolContext",
   V3 "SocialContext"]

/-- Plan discovery: enumerate the subjects of each Plan-kind class and
deduplicate (`plans = list(set(plans))`; the set's enumeration order is
arbitrary, which claim C7 covers by set-equality of sources). -/
def discoverPlans (g_v3 : Graph) : List Term :=
  (plan_subclasses.foldl (fun acc sc => acc ++ subjects g_v3 RDF_type sc)
    []).dedup

/-- The two graphs held by `full_migration`: the parsed source graph and the
output accumulator it serialises. -/
structure MigResult where
  src : Graph
  out : Graph
deriving DecidableEq, Repr

/-- `full_migration`: discover Plans, Processes, Milestones and context
entities in the source graph, run each transformer, and union every returned
fragment into the single output accumulator.  The source graph is only ever
read; the pair returned records the final state of both graphs. -/
def full_migration (g_v3 : Graph) : MigResult :=
  let plans := discoverPlans g_v3
  let processes := subjects g_v3 RDF_type (V3 "ActionProcess")
  let milestones := subjects g_v3 RDF_type (V3 "Milestone")
  let g : Graph := []
  let g := plans.foldl (fun g pl => unionG g (migrate_action_plan g_v3 pl)) g
  let g := processes.foldl
    (fun g pr => unionG g (migrate_action_process g_v3 pr)) g
  let g := milestones.foldl
    (fun g m => unionG g (migrate_milestone g_v3 m)) g
  let g := context_classes.foldl
    (fun g cc => (subjects g_v3 RDF_type cc).foldl (addCtxEntity g_v3) g) g
  ⟨g_v3, g⟩

/-! ### Support definitions for the specification statements -/

/-- The separator characters named by the specification's slug-determinism
property: space, forward slash, backslash. -/
def sepCharB (c : Char) : Bool :=
  c = ' ' || c = '/' || c = '\\'

/-- One position of the claimed project-label equivalence: the characters
differ only by letter case, or both are separator characters. -/
def charEquivB (c d : Char) : Bool :=
  (Char.toLower c == Char.toLower d) || (sepCharB c && sepCharB d)

/-- Positionwise `charEquivB` over two character lists of equal length. -/
def coreEquiv : List Char → List Char → Bool
  | [], [] => true
  | c :: cs, d :: ds => charEquivB c d && coreEquiv cs ds
  | _, _ => false

/-- A character list consisting of whitespace only. -/
def wsOnly (s : List Char) : Prop := ∀ c ∈ s, wsChar c = true

/-- The project-label relation asserted by claim C4, read literally: the two
texts differ only by leading/trailing whitespace, by letter case, or by the
choice of `/`, `\`, or space in separator positions. -/
def textEquiv (s1 s2 : List Char) : Prop :=
  ∃ a1 b1 a2 b2 c1 c2, wsOnly a1 ∧ wsOnly b1 ∧ wsOnly a2 ∧ wsOnly b2 ∧
    s1 = a1 ++ c1 ++ b1 ∧ s2 = a2 ++ c2 ++ b2 ∧ coreEquiv c1 c2 = true

/-- The composite of the three separator replacements of `safe_name`. -/
def sepU (c : Char) : Char :=
  if c = ' ' then '_' else if c = '/' then '_' else if c = '\\' then '_' else c

/-- Positionwise agreement of two character lists up to separator choice:
at each position the characters are equal or both are separators.  Used to
state the amended form of the slug-determinism claim. -/
def sepAgree : List Char → List Char → Bool
  | [], [] => true
  | c :: cs, d :: ds => (c == d || (sepCharB c && sepCharB d)) && sepAgree cs ds
  | _, _ => false

/-! ### Concrete fixtures used by counterexamples and witnesses -/

/-- Fixture: the specification's two-Plan scenario — one Root-kind Plan with
project `"Home Renovation"` and one Child-kind Plan with project
`"Home Renovation "` (trailing space). -/
def gScenario : Graph :=
  [⟨V3 "plan1", RDF_type, V3 "RootActionPlan"⟩,
   ⟨V3 "plan1", V3 "hasProject", .lit "Home Renovation".data⟩,
   ⟨V3 "plan2", RDF_type, V3 "ChildActionPlan"⟩,
   ⟨V3 "plan2", V3 "hasProject", .lit "Home Renovation ".data⟩]

/-- Fixture for claim C4: two Plans whose project labels differ only in one
position holding a trailing space versus a trailing slash. -/
def gSep : Graph :=
  [⟨V3 "planA", RDF_type, V3 "ActionPlan"⟩,
   ⟨V3 "planA", V3 "hasProject", .lit "a ".data⟩,
   ⟨V3 "planB", RDF_type, V3 "ActionPlan"⟩,
   ⟨V3 "planB", V3 "hasProject", .lit "a/".data⟩]

/-- Fixture: a Process with a `prescribedBy` reference to a Plan. -/
def gProc : Graph :=
  [⟨V3 "proc1", RDF_type, V3 "ActionProcess"⟩,
   ⟨V3 "proc1", V3 "prescribedBy", V3 "plan1"⟩,
   ⟨V3 "proc1", V3 "hasPriority", .lit "5".data⟩]

/-- Fixture: one Plan with a Location context wrapping a facility (the
wrapped identifier deliberately lies in the v3 namespace), and one Plan with
a facility-less Location context. -/
def gCtx : Graph :=
  [⟨V3 "planA", RDF_type, V3 "ActionPlan"⟩,
   ⟨V3 "planA", V3 "requiresContext", V3 "ctxA"⟩,
   ⟨V3 "ctxA", RDF_type, V3 "LocationContext"⟩,
   ⟨V3 "ctxA", V3 "requiresFacility", V3 "officeFacility"⟩,
   ⟨V3 "planB", RDF_type, V3 "ActionPlan"⟩,
   ⟨V3 "planB", V3 "requiresContext", V3 "ctxB"⟩,
   ⟨V3 "ctxB", RDF_type, V3 "LocationContext"⟩]

/-- Fixture: a Milestone with a project label. -/
def gMile : Graph :=
  [⟨V3 "ms1", RDF_type, V3 "Milestone"⟩,
   ⟨V3 "ms1", V3 "hasProject", .lit "Home Renovation".data⟩]

/-! ### Lemmas about the string machinery -/

lemma isPre_iff (p s : List Char) : isPre p s = true ↔ p <+: s := by
  induction p generalizing s with
  | nil => simp [isPre]
  | cons a as ih =>
    cases s with
    | nil => simp [isPre]
    | cons b bs =>
      simp [isPre, ih, List.prefix_cons_inj, Bool.and_eq_true, beq_iff_eq]

lemma hasSubstr_cons (pat : List Char) (c : Char) (cs : List Char) :
    hasSubstr pat (c :: cs) = (isPre pat (c :: cs) || hasSubstr pat cs) := rfl

lemma prefix_shape {s : List Char} (h : isPre patV3 s = true) :
    ∃ rest, s = '/' :: 'v' :: '3' :: '#' :: rest := by
  obtain ⟨t, ht⟩ := (isPre_iff patV3 s).mp h
  exact ⟨t, ht.symm⟩

lemma swap_hit (rest : List Char) :
    swapV3V4 ('/' :: 'v' :: '3' :: '#' :: rest) =
      '/' :: 'v' :: '4' :: '#' :: swapV3V4 rest := rfl

lemma swap_miss (c : Char) (cs : List Char)
    (h : isPre patV3 (c :: cs) = false) :
    swapV3V4 (c :: cs) = c :: swapV3V4 cs := by
  apply swapV3V4.eq_2
  intro rest hc hr
  subst hc
  subst hr
  have hT : (true : Bool) = false := h
  exact Bool.noConfusion hT

lemma isPre_false_of_shape {c : Char} {cs : List Char}
    (hne : ∀ rest, c = '/' → cs = 'v' :: '3' :: '#' :: rest → False) :
    isPre patV3 (c :: cs) = false := by
  by_cases h : isPre patV3 (c :: cs) = true
  · obtain ⟨rest, hr⟩ := prefix_shape h
    obtain ⟨h1, h2⟩ := List.cons_eq_cons.mp hr
    exact absurd (hne rest h1 h2) not_false
  · exact Bool.eq_false_iff.mpr h

lemma swap_cons_of_ne_slash {c : Char} {t u : List Char} (hc : c ≠ '/')
    (h : swapV3V4 t = c :: u) : ∃ ts, t = c :: ts ∧ u = swapV3V4 ts := by
  match t with
  | [] => exact absurd h (by simp [swapV3V4])
  | d :: ds =>
    by_cases hp : isPre patV3 (d :: ds) = true
    · obtain ⟨rest, hr⟩ := prefix_shape hp
      rw [hr, swap_hit] at h
      exact absurd (List.head_eq_of_cons_eq h).symm hc
    · rw [swap_miss d ds (Bool.eq_false_iff.mpr hp)] at h
      obtain ⟨h1, h2⟩ := List.cons_eq_cons.mp h
      exact ⟨ds, by rw [h1], h2.symm⟩

lemma hs_skip_rep (u : List Char) :
    hasSubstr patV3 ('/' :: 'v' :: '4' :: '#' :: u) = hasSubstr patV3 u := rfl

lemma no_marker_head {c : Char} {cs : List Char}
    (hp : isPre patV3 (c :: cs) = false) :
    isPre patV3 (c :: swapV3V4 cs) = false := by
  by_cases h : isPre patV3 (c :: swapV3V4 cs) = true
  · obtain ⟨rest, hr⟩ := prefix_shape h
    obtain ⟨hc, hcs⟩ := List.cons_eq_cons.mp hr
    obtain ⟨t1, ht1, hu1⟩ := swap_cons_of_ne_slash (by decide) hcs
    obtain ⟨t2, ht2, hu2⟩ := swap_cons_of_ne_slash (by decide) hu1.symm
    obtain ⟨t3, ht3, _⟩ := swap_cons_of_ne_slash (by decide) hu2.symm
    subst hc
    rw [ht1, ht2, ht3] at hp
    have hT : (true : Bool) = false := hp
    exact Bool.noConfusion hT
  · exact Bool.eq_false_iff.mpr h

lemma swap_no_marker (s : List Char) : hasSubstr patV3 (swapV3V4 s) = false := by
  induction s using swapV3V4.induct with
  | case1 rest ih =>
    rw [swap_hit, hs_skip_rep]
    exact ih
  | case2 c cs hne ih =>
    have hp := isPre_false_of_shape hne
    rw [swap_miss c cs hp, hasSubstr_cons, no_marker_head hp, ih]
    rfl
  | case3 => rfl

lemma swap_of_no_marker (s : List Char) (h : hasSubstr patV3 s = false) :
    swapV3V4 s = s := by
  induction s with
  | nil => rfl
  | cons c cs ih =>
    rw [hasSubstr_cons, Bool.or_eq_false_iff] at h
    rw [swap_miss c cs h.1, ih h.2]

lemma swap_idem (s : List Char) : swapV3V4 (swapV3V4 s) = swapV3V4 s :=
  swap_of_no_marker _ (swap_no_marker s)

lemma swap_has_v4 (s : List Char) (h : hasSubstr patV3 s = true) :
    hasSubstr patV4 (swapV3V4 s) = true := by
  induction s using swapV3V4.induct with
  | case1 rest ih =>
    rw [swap_hit]
    rfl
  | case2 c cs hne ih =>
    have hp := isPre_false_of_shape hne
    rw [hasSubstr_cons, hp, Bool.false_or] at h
    rw [swap_miss c cs hp, hasSubstr_cons, ih h, Bool.or_true]
  | case3 => exact absurd h (by decide)

lemma swap_v3ns (rest : List Char) :
    swapV3V4 (v3ns ++ rest) = v4ns ++ swapV3V4 rest := rfl

lemma swap_on_v3ns {rest loc : List Char}
    (hres : swapV3V4 (v3ns ++ rest) = v4ns ++ loc)
    (h4 : hasSubstr patV4 loc = false) :
    rest = loc := by
  rw [swap_v3ns] at hres
  have heq : swapV3V4 rest = loc := List.append_cancel_left hres
  by_cases hm : hasSubstr patV3 rest = true
  · have h5 := swap_has_v4 rest hm
    rw [heq, h4] at h5
    exact Bool.noConfusion h5
  · rw [← heq, swap_of_no_marker rest (Bool.eq_false_iff.mpr hm)]

/-! ### Lemmas about the graph operations -/

lemma mem_addT {g : Graph} {t u : Triple} : t ∈ addT g u ↔ t ∈ g ∨ t = u := by
  unfold addT
  by_cases h : u ∈ g
  · simp only [if_pos h]
    constructor
    · exact Or.inl
    · rintro (ht | rfl)
      · exact ht
      · exact h
  · simp [if_neg h]

lemma mem_addAll {g : Graph} {l : List Triple} {t : Triple} :
    t ∈ addAll g l ↔ t ∈ g ∨ t ∈ l := by
  induction l generalizing g with
  | nil => simp [addAll]
  | cons a l ih =>
    show t ∈ addAll (addT g a) l ↔ _
    rw [ih, mem_addT]
    simp [or_assoc]

lemma mem_unionG {g h : Graph} {t : Triple} :
    t ∈ unionG g h ↔ t ∈ g ∨ t ∈ h := mem_addAll

lemma nodup_addT {g : Graph} {u : Triple} (h : g.Nodup) : (addT g u).Nodup := by
  unfold addT
  by_cases hu : u ∈ g
  · simpa [if_pos hu]
  · simp [if_neg hu, List.nodup_append, h, hu]

lemma nodup_addAll {g : Graph} {l : List Triple} (h : g.Nodup) :
    (addAll g l).Nodup := by
  induction l generalizing g with
  | nil => exact h
  | cons a l ih => exact ih (nodup_addT h)

lemma mem_foldl_addAll {α : Type} (f : α → List Triple) (l : List α)
    (g0 : Graph) (t : Triple) :
    t ∈ l.foldl (fun g x => addAll g (f x)) g0 ↔
      t ∈ g0 ∨ ∃ x ∈ l, t ∈ f x := by
  induction l generalizing g0 with
  | nil => simp
  | cons a l ih =>
    show t ∈ l.foldl _ (addAll g0 (f a)) ↔ _
    rw [ih, mem_addAll]
    simp [or_assoc]

lemma nodup_foldl_addAll {α : Type} (f : α → List Triple) (l : List α)
    {g0 : Graph} (h : g0.Nodup) :
    (l.foldl (fun g x => addAll g (f x)) g0).Nodup := by
  induction l generalizing g0 with
  | nil => exact h
  | cons a l ih => exact ih (nodup_addAll h)

lemma mem_objects {g : Graph} {s p x : Term} :
    x ∈ objects g s p ↔ Triple.mk s p x ∈ g := by
  simp only [objects, List.mem_map, List.mem_filter, Bool.and_eq_true,
    beq_iff_eq]
  constructor
  · rintro ⟨t, ⟨ht, rfl, rfl⟩, rfl⟩
    exact ht
  · intro h
    exact ⟨⟨s, p, x⟩, ⟨h, rfl, rfl⟩, rfl⟩

lemma mem_predicate_objects {g : Graph} {s p o : Term} :
    (p, o) ∈ predicate_objects g s ↔ Triple.mk s p o ∈ g := by
  simp only [predicate_objects, List.mem_map, List.mem_filter, beq_iff_eq,
    Prod.mk.injEq]
  constructor
  · rintro ⟨t, ⟨ht, rfl⟩, rfl, rfl⟩
    exact ht
  · intro h
    exact ⟨⟨s, p, o⟩, ⟨h, rfl⟩, rfl, rfl⟩

lemma mem_subjects {g : Graph} {p o x : Term} :
    x ∈ subjects g p o ↔ Triple.mk x p o ∈ g := by
  simp only [subjects, List.mem_map, List.mem_filter, Bool.and_eq_true,
    beq_iff_eq]
  constructor
  · rintro ⟨t, ⟨ht, rfl, rfl⟩, rfl⟩
    exact ht
  · intro h
    exact ⟨⟨x, p, o⟩, ⟨h, rfl, rfl⟩, rfl⟩

lemma objects_ne_nil {g : Graph} {s p : Term} :
    objects g s p ≠ [] ↔ ∃ x, Triple.mk s p x ∈ g := by
  constructor
  · intro h
    obtain ⟨x, hx⟩ := List.exists_mem_of_ne_nil _ h
    exact ⟨x, mem_objects.mp hx⟩
  · rintro ⟨x, hx⟩
    exact List.ne_nil_of_mem (mem_objects.mpr hx)

lemma mem_foldl_addT {α : Type} (f : α → Triple) (l : List α) (g0 : Graph)
    (t : Triple) :
    t ∈ l.foldl (fun g x => addT g (f x)) g0 ↔ t ∈ g0 ∨ ∃ x ∈ l, t = f x := by
  induction l generalizing g0 with
  | nil => simp
  | cons a l ih =>
    show t ∈ l.foldl _ (addT g0 (f a)) ↔ _
    rw [ih, mem_addT]
    simp [or_assoc]

lemma mem_migrate_properties {g4 : Graph} {s4 : Term} {g3 : Graph} {s3 : Term}
    {skip : List Term} {t : Triple} :
    t ∈ migrate_properties g4 s4 g3 s3 skip ↔
      t ∈ g4 ∨ ∃ p o, Triple.mk s3 p o ∈ g3 ∧ t ∈ map_pair s4 skip p o := by
  unfold migrate_properties
  simp only [mem_foldl_addAll, Prod.exists, mem_predicate_objects]

lemma mem_migrate_action_plan {g : Graph} {plan : Term} {t : Triple} :
    t ∈ migrate_action_plan g plan ↔
      (t = ⟨get_v4_iri plan, RDF_type, CCO "ont00000974"⟩ ∨
       (∃ p o, Triple.mk plan p o ∈ g ∧
         t ∈ map_pair (get_v4_iri plan) plan_special_props p o) ∨
       (∃ par, Triple.mk plan (V3 "parentAction") par ∈ g ∧
         t = ⟨get_v4_iri plan, V4 "partOf", get_v4_iri par⟩) ∨
       (∃ pr, Triple.mk plan (V3 "hasProject") pr ∈ g ∧
         t ∈ projectTriples (get_v4_iri plan) pr) ∨
       (∃ c, (Triple.mk plan (V3 "requiresContext") c ∈ g ∨
              Triple.mk plan (V3 "hasContext") c ∈ g) ∧
         t ∈ ctxTriples g (get_v4_iri plan) c)) := by
  simp only [migrate_action_plan, mem_foldl_addAll, mem_addAll,
    mem_migrate_properties, mem_addT, List.not_mem_nil, false_or,
    List.mem_append, List.mem_map, mem_objects]
  constructor
  · rintro ((((h0 | hpair) | hpar) | hproj) | hctx)
    · exact Or.inl h0
    · exact Or.inr (Or.inl hpair)
    · obtain ⟨par, hpar1, rfl⟩ := hpar
      exact Or.inr (Or.inr (Or.inl ⟨par, hpar1, rfl⟩))
    · obtain ⟨pr, h1, h2⟩ := hproj
      exact Or.inr (Or.inr (Or.inr (Or.inl ⟨pr, h1, h2⟩)))
    · obtain ⟨c, h1, h2⟩ := hctx
      exact Or.inr (Or.inr (Or.inr (Or.inr ⟨c, h1, h2⟩)))
  · rintro (h0 | hpair | ⟨par, h1, rfl⟩ | ⟨pr, h1, h2⟩ | ⟨c, h1, h2⟩)
    · exact Or.inl (Or.inl (Or.inl (Or.inl h0)))
    · exact Or.inl (Or.inl (Or.inl (Or.inr hpair)))
    · exact Or.inl (Or.inl (Or.inr ⟨par, h1, rfl⟩))
    · exact Or.inl (Or.inr ⟨pr, h1, h2⟩)
    · exact Or.inr ⟨c, h1, h2⟩

lemma mem_migrate_action_process {g : Graph} {proc : Term} {t : Triple} :
    t ∈ migrate_action_process g proc ↔
      (t = ⟨get_v4_iri proc, RDF_type, CCO "ont00000228"⟩ ∨
       (∃ p o, Triple.mk proc p o ∈ g ∧
         t ∈ map_pair (get_v4_iri proc)
           [V3 "hasState", V3 "prescribedBy", RDF_type] p o) ∨
       (∃ p o, Triple.mk proc p o ∈ g ∧
         t ∈ processStateTriples (get_v4_iri proc) p o)) := by
  simp only [migrate_action_process, mem_foldl_addAll,
    mem_migrate_properties, mem_addT, List.not_mem_nil, false_or,
    Prod.exists, mem_predicate_objects, or_assoc]

lemma mem_migrate_milestone {g : Graph} {ms : Term} {t : Triple} :
    t ∈ migrate_milestone g ms ↔
      (t = ⟨get_v4_iri ms, RDF_type, V4 "Milestone"⟩ ∨
       (∃ p o, Triple.mk ms p o ∈ g ∧
         t ∈ map_pair (get_v4_iri ms)
           [V3 "parentAction", RDF_type, V3 "hasProject"] p o) ∨
       (∃ pr, Triple.mk ms (V3 "hasProject") pr ∈ g ∧
         t = ⟨get_v4_iri ms, V4 "marksProgressToward",
           objective_iri pr.strVal⟩)) := by
  simp only [migrate_milestone, mem_foldl_addT, mem_migrate_properties,
    mem_addT, List.not_mem_nil, false_or, mem_objects, or_assoc]

lemma mem_migrate_context_entity {g : Graph} {ctx : Term} {h : Graph}
    {t : Triple} (hsome : migrate_context_entity g ctx = some h) :
    t ∈ h ↔
      (∃ nt, ctxNewType (objects g ctx RDF_type) = some nt ∧
        (t = ⟨get_v4_iri ctx, RDF_type, nt⟩ ∨
         ∃ p o, Triple.mk ctx p o ∈ g ∧
           t ∈ map_pair (get_v4_iri ctx)
             [V3 "requiresFacility", V3 "requiresArtifact",
              V3 "requiresAgent", RDF_type] p o)) := by
  unfold migrate_context_entity at hsome
  cases hnt : ctxNewType (objects g ctx RDF_type) with
  | none => rw [hnt] at hsome; exact absurd hsome (by simp)
  | some nt =>
    rw [hnt] at hsome
    simp only [Option.some.injEq] at hsome
    subst hsome
    rw [mem_migrate_properties, mem_addT]
    simp only [List.not_mem_nil, false_or, Option.some.injEq]
    constructor
    · rintro (h0 | hpair)
      · exact ⟨nt, rfl, Or.inl h0⟩
      · exact ⟨nt, rfl, Or.inr hpair⟩
    · rintro ⟨nt', rfl, (h0 | hpair)⟩
      · exact Or.inl h0
      · exact Or.inr hpair

lemma mem_foldl_unionG {α : Type} (f : α → Graph) (l : List α) (g0 : Graph)
    (t : Triple) :
    t ∈ l.foldl (fun g x => unionG g (f x)) g0 ↔ t ∈ g0 ∨ ∃ x ∈ l, t ∈ f x :=
  mem_foldl_addAll f l g0 t

lemma mem_addCtxEntity {g3 g : Graph} {ctx : Term} {t : Triple} :
    t ∈ addCtxEntity g3 g ctx ↔
      t ∈ g ∨ ∃ h, migrate_context_entity g3 ctx = some h ∧ t ∈ h := by
  unfold addCtxEntity
  cases hm : migrate_context_entity g3 ctx with
  | none => simp [hm]
  | some res => simp [hm, mem_unionG]

lemma mem_foldl_addCtx (g3 : Graph) (l : List Term) (g0 : Graph) (t : Triple) :
    t ∈ l.foldl (addCtxEntity g3) g0 ↔
      t ∈ g0 ∨ ∃ c ∈ l, ∃ h, migrate_context_entity g3 c = some h ∧ t ∈ h := by
  induction l generalizing g0 with
  | nil => simp
  | cons a l ih =>
    show t ∈ l.foldl _ (addCtxEntity g3 g0 a) ↔ _
    rw [ih, mem_addCtxEntity]
    simp [or_assoc]

lemma mem_ctx_classes_fold (g3 : Graph) (ls : List Term) (g0 : Graph)
    (t : Triple) :
    t ∈ ls.foldl
        (fun g cc => (subjects g3 RDF_type cc).foldl (addCtxEntity g3) g)
        g0 ↔
      t ∈ g0 ∨ ∃ cc ∈ ls, ∃ c, Triple.mk c RDF_type cc ∈ g3 ∧
        ∃ h, migrate_context_entity g3 c = some h ∧ t ∈ h := by
  induction ls generalizing g0 with
  | nil => simp
  | cons a ls ih =>
    show t ∈ ls.foldl _ ((subjects g3 RDF_type a).foldl (addCtxEntity g3) g0) ↔ _
    rw [ih, mem_foldl_addCtx]
    simp only [List.mem_cons, mem_subjects]
    constructor
    · rintro ((h0 | ⟨c, hc, hh⟩) | ⟨cc, hcc, c, hc, hh⟩)
      · exact Or.inl h0
      · exact Or.inr ⟨a, Or.inl rfl, c, hc, hh⟩
      · exact Or.inr ⟨cc, Or.inr hcc, c, hc, hh⟩
    · rintro (h0 | ⟨cc, (rfl | hcc), c, hc, hh⟩)
      · exact Or.inl (Or.inl h0)
      · exact Or.inl (Or.inr ⟨c, hc, hh⟩)
      · exact Or.inr ⟨cc, hcc, c, hc, hh⟩

lemma mem_foldl_append {α β : Type} (f : α → List β) (l : List α)
    (acc : List β) (x : β) :
    x ∈ l.foldl (fun acc a => acc ++ f a) acc ↔ x ∈ acc ∨ ∃ a ∈ l, x ∈ f a := by
  induction l generalizing acc with
  | nil => simp
  | cons a l ih =>
    show x ∈ l.foldl _ (acc ++ f a) ↔ _
    rw [ih]
    simp [or_assoc]

lemma mem_discoverPlans {g : Graph} {pl : Term} :
    pl ∈ discoverPlans g ↔
      ∃ sc ∈ plan_subclasses, Triple.mk pl RDF_type sc ∈ g := by
  unfold discoverPlans
  rw [List.mem_dedup, mem_foldl_append (fun sc => subjects g RDF_type sc)]
  simp [mem_subjects]

lemma mem_full_out {g : Graph} {t : Triple} :
    t ∈ (full_migration g).out ↔
      ((∃ pl, pl ∈ discoverPlans g ∧ t ∈ migrate_action_plan g pl) ∨
       (∃ pr, Triple.mk pr RDF_type (V3 "ActionProcess") ∈ g ∧
         t ∈ migrate_action_process g pr) ∨
       (∃ m, Triple.mk m RDF_type (V3 "Milestone") ∈ g ∧
         t ∈ migrate_milestone g m) ∨
       (∃ cc ∈ context_classes, ∃ c, Triple.mk c RDF_type cc ∈ g ∧
         ∃ h, migrate_context_entity g c = some h ∧ t ∈ h)) := by
  simp only [full_migration]
  refine Iff.trans (mem_ctx_classes_fold g context_classes _ t) ?_
  rw [mem_foldl_unionG (migrate_milestone g),
    mem_foldl_unionG (migrate_action_process g),
    mem_foldl_unionG (migrate_action_plan g)]
  simp only [List.not_mem_nil, false_or, mem_subjects, or_assoc]

lemma nodup_full_out (g : Graph) : (full_migration g).out.Nodup := by
  simp only [full_migration]
  have h0 : (List.Nodup ([] : Graph)) := List.nodup_nil
  have h1 := nodup_foldl_addAll (migrate_action_plan g) (discoverPlans g) h0
  have h2 := nodup_foldl_addAll (migrate_action_process g)
    (subjects g RDF_type (V3 "ActionProcess")) h1
  have h3 := nodup_foldl_addAll (migrate_milestone g)
    (subjects g RDF_type (V3 "Milestone")) h2
  have key : ∀ (ls : List Term) (g0 : Graph), g0.Nodup →
      (ls.foldl
        (fun g' cc => (subjects g RDF_type cc).foldl (addCtxEntity g) g')
        g0).Nodup := by
    intro ls
    induction ls with
    | nil => intro g0 hg0; exact hg0
    | cons a ls ih =>
      intro g0 hg0
      refine ih _ ?_
      have inner : ∀ (cl : List Term) (gi : Graph), gi.Nodup →
          (cl.foldl (addCtxEntity g) gi).Nodup := by
        intro cl
        induction cl with
        | nil => intro gi hgi; exact hgi
        | cons c cl ihc =>
          intro gi hgi
          refine ihc _ ?_
          unfold addCtxEntity
          cases migrate_context_entity g c with
          | none => exact hgi
          | some res => exact nodup_addAll hgi
      exact inner _ _ hg0
  exact key context_classes _ h3

lemma full_migration_src (g : Graph) : (full_migration g).src = g := rfl

lemma lookup_mem :
    ∀ (l : List (Term × Term)) (p mp : Term),
      lookupMap l p = some mp → (p, mp) ∈ l := by
  intro l
  induction l with
  | nil => intro p mp h; exact absurd h (by simp [lookupMap])
  | cons kv rest ih =>
    intro p mp h
    obtain ⟨k, v⟩ := kv
    by_cases hk : p = k
    · subst hk
      rw [show lookupMap ((p, v) :: rest) p = some v by simp [lookupMap]] at h
      obtain rfl := (Option.some.injEq .. ▸ h : v = mp)
      exact List.mem_cons_self _ _
    · rw [show lookupMap ((k, v) :: rest) p = lookupMap rest p by
        simp [lookupMap, hk]] at h
      exact List.mem_cons_of_mem _ (ih p mp h)

lemma map_pair_pred_cases {s4 : Term} {skip : List Term} {p o : Term}
    {t : Triple} (ht : t ∈ map_pair s4 skip p o) :
    t.s = s4 ∧ t.o = o ∧ p ∉ skip ∧
    ((∃ mp, lookupMap PROPERTY_MAP p = some mp ∧ t.p = mp) ∨
     (p ≠ RDF_type ∧ isPre v3ns p.strVal = true ∧ t.p = get_v4_iri p ∧
       lookupMap PROPERTY_MAP p = none) ∨
     (p ≠ RDF_type ∧ isPre v3ns p.strVal = false ∧ t.p = p ∧
       lookupMap PROPERTY_MAP p = none)) := by
  unfold map_pair at ht
  by_cases hskip : p ∈ skip
  · rw [if_pos hskip] at ht
    exact absurd ht (List.not_mem_nil t)
  · rw [if_neg hskip] at ht
    cases hlk : lookupMap PROPERTY_MAP p with
    | some mp =>
      rw [hlk] at ht
      have ht' : t ∈ (if mp.strVal ≠ [] then [(⟨s4, mp, o⟩ : Triple)] else []) := ht
      by_cases hne : mp.strVal ≠ []
      · rw [if_pos hne] at ht'
        obtain rfl := List.mem_singleton.mp ht'
        exact ⟨rfl, rfl, hskip, Or.inl ⟨mp, rfl, rfl⟩⟩
      · rw [if_neg hne] at ht'
        exact absurd ht' (List.not_mem_nil t)
    | none =>
      rw [hlk] at ht
      have ht' : t ∈ (if p = RDF_type then []
        else if isPre v3ns p.strVal then [(⟨s4, get_v4_iri p, o⟩ : Triple)]
        else [(⟨s4, p, o⟩ : Triple)]) := ht
      by_cases hty : p = RDF_type
      · rw [if_pos hty] at ht'
        exact absurd ht' (List.not_mem_nil t)
      · rw [if_neg hty] at ht'
        by_cases hv3 : isPre v3ns p.strVal = true
        · rw [if_pos hv3] at ht'
          obtain rfl := List.mem_singleton.mp ht'
          exact ⟨rfl, rfl, hskip, Or.inr (Or.inl ⟨hty, hv3, rfl, rfl⟩)⟩
        · rw [if_neg hv3] at ht'
          obtain rfl := List.mem_singleton.mp ht'
          exact ⟨rfl, rfl, hskip,
            Or.inr (Or.inr ⟨hty, Bool.eq_false_iff.mpr hv3, rfl, rfl⟩)⟩

lemma processStateTriples_cases {proc4 p o : Term} {t : Triple}
    (ht : t ∈ processStateTriples proc4 p o) :
    (p = V3 "hasState" ∧ t = statePhaseTriple proc4 o) ∨
    (p = V3 "prescribedBy" ∧
      t = ⟨get_v4_iri o, V4 "prescribes", proc4⟩) := by
  unfold processStateTriples at ht
  by_cases h1 : p = V3 "hasState"
  · rw [if_pos h1] at ht
    exact Or.inl ⟨h1, List.mem_singleton.mp ht⟩
  · rw [if_neg h1] at ht
    by_cases h2 : p = V3 "prescribedBy"
    · rw [if_pos h2] at ht
      exact Or.inr ⟨h2, List.mem_singleton.mp ht⟩
    · rw [if_neg h2] at ht
      exact absurd ht (List.not_mem_nil t)

lemma get_v4_ne {p q : Term} (hq : hasSubstr patV3 q.strVal = true) :
    get_v4_iri p ≠ q := by
  intro h
  have hs : swapV3V4 p.strVal = q.strVal := congrArg Term.strVal h
  have hn := swap_no_marker p.strVal
  rw [hs, hq] at hn
  exact Bool.noConfusion hn

lemma get_v4_eq_v4name {p : Term} {name : String}
    (hv3 : isPre v3ns p.strVal = true)
    (h4 : hasSubstr patV4 name.data = false)
    (heq : get_v4_iri p = V4 name) : p.strVal = (V3 name).strVal := by
  obtain ⟨rest, hr⟩ := (isPre_iff v3ns p.strVal).mp hv3
  have hs : swapV3V4 p.strVal = v4ns ++ name.data := congrArg Term.strVal heq
  rw [← hr] at hs
  have hrn := swap_on_v3ns hs h4
  rw [← hr, hrn]
  rfl

/-! ### Claim theorems -/

/-- C5: the identifier rewriter is idempotent — for every source identifier
containing the versioned-namespace marker `/v3#`, applying the rewrite twice
yields the same result as applying it once to the original identifier, and
for every identifier not containing the marker, the rewriter returns the
string unmodified. -/
theorem spec_c5_rewriter_idempotent (s : List Char) :
    (hasSubstr patV3 s = true →
      get_v4_iri (get_v4_iri (Term.iri s)) = get_v4_iri (Term.iri s)) ∧
    (hasSubstr patV3 s = false → get_v4_iri (Term.iri s) = Term.iri s) := by
  constructor
  · intro _
    show Term.iri (swapV3V4 (swapV3V4 s)) = Term.iri (swapV3V4 s)
    rw [swap_idem]
  · intro h
    show Term.iri (swapV3V4 s) = Term.iri s
    rw [swap_of_no_marker s h]

/-- Witness for C5 at a marker-bearing IRI and a marker-free IRI. -/
theorem spec_c5_witness :
    (hasSubstr patV3 "https://clearhead.us/vocab/actions/v3#Plan1".data = true ∧
      get_v4_iri (get_v4_iri
        (Term.iri "https://clearhead.us/vocab/actions/v3#Plan1".data)) =
        get_v4_iri
          (Term.iri "https://clearhead.us/vocab/actions/v3#Plan1".data)) ∧
    (hasSubstr patV3 "urn:objective:home_renovation".data = false ∧
      get_v4_iri (Term.iri "urn:objective:home_renovation".data) =
        Term.iri "urn:objective:home_renovation".data) :=
  ⟨⟨by decide,
    (spec_c5_rewriter_idempotent
      "https://clearhead.us/vocab/actions/v3#Plan1".data).1 (by decide)⟩,
   ⟨by decide,
    (spec_c5_rewriter_idempotent
      "urn:objective:home_renovation".data).2 (by decide)⟩⟩

/-- C9: the migration only reads the source graph; in this functional
embedding every rdflib call of the engine is transcribed as either a read of
the source component or a construction of the separate output accumulator,
and the migration returns its source component unchanged. -/
theorem spec_c9_source_preserved (g : Graph) :
    (full_migration g).src = g ∧
    (∀ t, t ∈ (full_migration g).src ↔ t ∈ g) :=
  ⟨full_migration_src g, fun t => by rw [full_migration_src]⟩

/-- C6: the property mapper, for a non-skipped `(predicate, object)` pair at
the source subject: a rename-table predicate is emitted under the mapped
predicate; the generic type-assertion predicate emits nothing; an unmapped
source-vocabulary-namespace predicate is emitted under the
namespace-substituted predicate (not dropped); any other predicate is copied
unchanged. -/
theorem spec_c6_property_mapper (g4 : Graph) (s4 : Term) (g3 : Graph)
    (s3 : Term) (skip : List Term) (p o : Term)
    (hpo : Triple.mk s3 p o ∈ g3) (hskip : p ∉ skip) :
    (∀ mp, lookupMap PROPERTY_MAP p = some mp →
      map_pair s4 skip p o = [⟨s4, mp, o⟩] ∧
      Triple.mk s4 mp o ∈ migrate_properties g4 s4 g3 s3 skip) ∧
    (lookupMap PROPERTY_MAP p = none → p = RDF_type →
      map_pair s4 skip p o = []) ∧
    (lookupMap PROPERTY_MAP p = none → p ≠ RDF_type →
      isPre v3ns p.strVal = true →
      map_pair s4 skip p o = [⟨s4, get_v4_iri p, o⟩] ∧
      Triple.mk s4 (get_v4_iri p) o ∈ migrate_properties g4 s4 g3 s3 skip) ∧
    (lookupMap PROPERTY_MAP p = none → p ≠ RDF_type →
      isPre v3ns p.strVal = false →
      map_pair s4 skip p o = [⟨s4, p, o⟩] ∧
      Triple.mk s4 p o ∈ migrate_properties g4 s4 g3 s3 skip) := by
  refine ⟨?_, ?_, ?_, ?_⟩
  · intro mp hmp
    have hval : mp.strVal ≠ [] := by
      have hmem := lookup_mem PROPERTY_MAP p mp hmp
      have hvals : ∀ kv ∈ PROPERTY_MAP, (kv.2).strVal ≠ [] := by decide
      exact hvals (p, mp) hmem
    have heq : map_pair s4 skip p o = [⟨s4, mp, o⟩] := by
      unfold map_pair
      rw [if_neg hskip, hmp]
      show (if mp.strVal ≠ [] then [(⟨s4, mp, o⟩ : Triple)] else []) = _
      rw [if_pos hval]
    refine ⟨heq, mem_migrate_properties.mpr (Or.inr ⟨p, o, hpo, ?_⟩)⟩
    rw [heq]
    exact List.mem_singleton.mpr rfl
  · intro hnone hty
    unfold map_pair
    rw [if_neg hskip, hnone]
    show (if p = RDF_type then []
      else if isPre v3ns p.strVal then [(⟨s4, get_v4_iri p, o⟩ : Triple)]
      else [(⟨s4, p, o⟩ : Triple)]) = []
    rw [if_pos hty]
  · intro hnone hty hv3
    have heq : map_pair s4 skip p o = [⟨s4, get_v4_iri p, o⟩] := by
      unfold map_pair
      rw [if_neg hskip, hnone]
      show (if p = RDF_type then []
        else if isPre v3ns p.strVal then [(⟨s4, get_v4_iri p, o⟩ : Triple)]
        else [(⟨s4, p, o⟩ : Triple)]) = _
      rw [if_neg hty, if_pos hv3]
    refine ⟨heq, mem_migrate_properties.mpr (Or.inr ⟨p, o, hpo, ?_⟩)⟩
    rw [heq]
    exact List.mem_singleton.mpr rfl
  · intro hnone hty hv3
    have heq : map_pair s4 skip p o = [⟨s4, p, o⟩] := by
      unfold map_pair
      rw [if_neg hskip, hnone]
      show (if p = RDF_type then []
        else if isPre v3ns p.strVal then [(⟨s4, get_v4_iri p, o⟩ : Triple)]
        else [(⟨s4, p, o⟩ : Triple)]) = _
      rw [if_neg hty, if_neg (by rw [hv3]; decide)]
    refine ⟨heq, mem_migrate_properties.mpr (Or.inr ⟨p, o, hpo, ?_⟩)⟩
    rw [heq]
    exact List.mem_singleton.mpr rfl

/-- Witness for C6: a rename-table predicate of the process fixture is
emitted under its mapped v4 predicate. -/
theorem spec_c6_witness :
    V3 "hasPriority" ∉ ([] : List Term) ∧
    Triple.mk (get_v4_iri (V3 "proc1")) (V4 "hasPriority")
        (Term.lit "5".data) ∈
      migrate_properties [] (get_v4_iri (V3 "proc1")) gProc (V3 "proc1") [] :=
  ⟨by decide,
   ((spec_c6_property_mapper [] (get_v4_iri (V3 "proc1")) gProc (V3 "proc1")
      [] (V3 "hasPriority") (Term.lit "5".data) (by decide) (by decide)).1
      (V4 "hasPriority") (by decide)).2⟩

/-- C2: for a Process with a `prescribed-by` reference to a Plan `P`, the
Process transformer emits the deliberately inverted `prescribes` triple with
the rewritten Plan as subject and the rewritten Process as object, and its
output fragment carries no same-direction `prescribed-by` triple (neither
the v3 relation nor a v4 namesake), given a well-formed v3 source (predicates
are IRIs, and the v4-only `prescribedBy` predicate does not occur). -/
theorem spec_c2_prescribes_inverted (g : Graph) (proc P : Term)
    (hpre : Triple.mk proc (V3 "prescribedBy") P ∈ g)
    (hpure : ∀ x, Triple.mk proc (V4 "prescribedBy") x ∉ g)
    (hiri : ∀ p o, Triple.mk proc p o ∈ g → p.isIRI = true) :
    Triple.mk (get_v4_iri P) (V4 "prescribes") (get_v4_iri proc) ∈
      migrate_action_process g proc ∧
    ∀ t ∈ migrate_action_process g proc,
      t.p ≠ V3 "prescribedBy" ∧ t.p ≠ V4 "prescribedBy" := by
  constructor
  · apply mem_migrate_action_process.mpr
    refine Or.inr (Or.inr ⟨V3 "prescribedBy", P, hpre, ?_⟩)
    unfold processStateTriples
    rw [if_neg (by decide), if_pos rfl]
    exact List.mem_singleton.mpr rfl
  · intro t ht
    rcases mem_migrate_action_process.mp ht with
      h0 | ⟨p, o, hpo, hmp⟩ | ⟨p, o, hpo, hst⟩
    · rw [h0]
      exact ⟨show RDF_type ≠ V3 "prescribedBy" by decide,
        show RDF_type ≠ V4 "prescribedBy" by decide⟩
    · obtain ⟨hs, ho, hskip, hcases⟩ := map_pair_pred_cases hmp
      rcases hcases with ⟨mp, hlk, hp⟩ | ⟨hty, hv3, hp, _⟩ | ⟨hty, hv3, hp, _⟩
      · have hmem := lookup_mem PROPERTY_MAP p mp hlk
        have hvals : ∀ kv ∈ PROPERTY_MAP,
            kv.2 ≠ V3 "prescribedBy" ∧ kv.2 ≠ V4 "prescribedBy" := by decide
        rw [hp]
        exact hvals (p, mp) hmem
      · refine ⟨by rw [hp]; exact get_v4_ne (by decide), ?_⟩
        rw [hp]
        intro hbad
        have hps := get_v4_eq_v4name hv3 (by decide) hbad
        have hii := hiri p o hpo
        cases p with
        | lit v => exact Bool.noConfusion hii
        | iri v =>
          have hpv : Term.iri v = V3 "prescribedBy" := congrArg Term.iri hps
          apply hskip
          rw [hpv]
          exact List.mem_cons_of_mem _ (List.mem_cons_self _ _)
      · constructor
        · rw [hp]
          intro hbad
          rw [hbad] at hv3
          exact absurd hv3 (by decide)
        · rw [hp]
          intro hbad
          rw [hbad] at hpo
          exact hpure o hpo
    · rcases processStateTriples_cases hst with ⟨_, ht2⟩ | ⟨_, ht2⟩
      · rw [ht2]
        exact ⟨show V4 "hasPhase" ≠ V3 "prescribedBy" by decide,
          show V4 "hasPhase" ≠ V4 "prescribedBy" by decide⟩
      · rw [ht2]
        exact ⟨show V4 "prescribes" ≠ V3 "prescribedBy" by decide,
          show V4 "prescribes" ≠ V4 "prescribedBy" by decide⟩

/-- Witness for C2 on the process fixture. -/
theorem spec_c2_witness :
    Triple.mk (V3 "proc1") (V3 "prescribedBy") (V3 "plan1") ∈ gProc ∧
    Triple.mk (get_v4_iri (V3 "plan1")) (V4 "prescribes")
        (get_v4_iri (V3 "proc1")) ∈
      migrate_action_process gProc (V3 "proc1") :=
  ⟨by decide,
   (spec_c2_prescribes_inverted gProc (V3 "proc1") (V3 "plan1") (by decide)
      (fun x hx =>
        (by decide : ∀ t ∈ gProc, t.p ≠ V4 "prescribedBy") _ hx rfl)
      (fun p o hx =>
        (by decide : ∀ t ∈ gProc, t.p.isIRI = true) _ hx)).1⟩

/-- C8: for a Milestone with a project label, the Milestone transformer
derives the same Objective identifier scheme as the Plan transformer (the
shared `objective_iri` of the shared `safe_name` slug) and links via a
distinct `marksProgressToward` relation, emitting no `has-objective` link,
given a well-formed v3 source. -/
theorem spec_c8_milestone_objective (g : Graph) (ms proj : Term)
    (hproj : Triple.mk ms (V3 "hasProject") proj ∈ g)
    (hno3 : ∀ x, Triple.mk ms (V3 "hasObjective") x ∉ g)
    (hno4 : ∀ x, Triple.mk ms (V4 "hasObjective") x ∉ g)
    (hiri : ∀ p o, Triple.mk ms p o ∈ g → p.isIRI = true) :
    Triple.mk (get_v4_iri ms) (V4 "marksProgressToward")
        (objective_iri proj.strVal) ∈ migrate_milestone g ms ∧
    (∀ t ∈ migrate_milestone g ms,
      t.p ≠ V4 "hasObjective" ∧ t.p ≠ V3 "hasObjective") ∧
    (∀ g' plan, Triple.mk plan (V3 "hasProject") proj ∈ g' →
      Triple.mk (get_v4_iri plan) (V4 "hasObjective")
        (objective_iri proj.strVal) ∈ migrate_action_plan g' plan) := by
  refine ⟨?_, ?_, ?_⟩
  · exact mem_migrate_milestone.mpr (Or.inr (Or.inr ⟨proj, hproj, rfl⟩))
  · intro t ht
    rcases mem_migrate_milestone.mp ht with
      h0 | ⟨p, o, hpo, hmp⟩ | ⟨pr, hpr, h0⟩
    · rw [h0]
      exact ⟨show RDF_type ≠ V4 "hasObjective" by decide,
        show RDF_type ≠ V3 "hasObjective" by decide⟩
    · obtain ⟨hs, ho, hskip, hcases⟩ := map_pair_pred_cases hmp
      rcases hcases with ⟨mp, hlk, hp⟩ | ⟨hty, hv3, hp, _⟩ | ⟨hty, hv3, hp, _⟩
      · have hmem := lookup_mem PROPERTY_MAP p mp hlk
        have hvals : ∀ kv ∈ PROPERTY_MAP,
            kv.2 ≠ V4 "hasObjective" ∧ kv.2 ≠ V3 "hasObjective" := by decide
        rw [hp]
        exact hvals (p, mp) hmem
      · refine ⟨?_, by rw [hp]; exact get_v4_ne (by decide)⟩
        rw [hp]
        intro hbad
        have hps := get_v4_eq_v4name hv3 (by decide) hbad
        have hii := hiri p o hpo
        cases p with
        | lit v => exact Bool.noConfusion hii
        | iri v =>
          have hpv : Term.iri v = V3 "hasObjective" := congrArg Term.iri hps
          rw [hpv] at hpo
          exact hno3 o hpo
      · constructor
        · rw [hp]
          intro hbad
          rw [hbad] at hpo
          exact hno4 o hpo
        · rw [hp]
          intro hbad
          rw [hbad] at hv3
          exact absurd hv3 (by decide)
    · rw [h0]
      exact ⟨show V4 "marksProgressToward" ≠ V4 "hasObjective" by decide,
        show V4 "marksProgressToward" ≠ V3 "hasObjective" by decide⟩
  · intro g' plan hplan
    apply mem_migrate_action_plan.mpr
    refine Or.inr (Or.inr (Or.inr (Or.inl ⟨proj, hplan, ?_⟩)))
    unfold projectTriples
    exact List.mem_cons_of_mem _
      (List.mem_cons_of_mem _ (List.mem_cons_self _ _))

/-- Witness for C8 on the milestone fixture. -/
theorem spec_c8_witness :
    Triple.mk (V3 "ms1") (V3 "hasProject")
        (Term.lit "Home Renovation".data) ∈ gMile ∧
    Triple.mk (get_v4_iri (V3 "ms1")) (V4 "marksProgressToward")
        (objective_iri "Home Renovation".data) ∈
      migrate_milestone gMile (V3 "ms1") :=
  ⟨by decide,
   (spec_c8_milestone_objective gMile (V3 "ms1")
      (Term.lit "Home Renovation".data) (by decide)
      (fun x hx =>
        (by decide : ∀ t ∈ gMile, t.p ≠ V3 "hasObjective") _ hx rfl)
      (fun x hx =>
        (by decide : ∀ t ∈ gMile, t.p ≠ V4 "hasObjective") _ hx rfl)
      (fun p o hx =>
        (by decide : ∀ t ∈ gMile, t.p.isIRI = true) _ hx)).1⟩

lemma ctxTriples_loc_wrapped {g : Graph} {plan4 ctx : Term}
    (hloc : Triple.mk ctx RDF_type (V3 "LocationContext") ∈ g)
    (hfac : ∃ f, Triple.mk ctx (V3 "requiresFacility") f ∈ g) :
    ctxTriples g plan4 ctx =
      (objects g ctx (V3 "requiresFacility")).map
        (fun f => ⟨plan4, V4 "requiresFacility", f⟩) := by
  simp only [ctxTriples]
  rw [if_pos (mem_objects.mpr hloc), if_pos (objects_ne_nil.mpr hfac)]

lemma ctxTriples_loc_fallback {g : Graph} {plan4 ctx : Term}
    (hloc : Triple.mk ctx RDF_type (V3 "LocationContext") ∈ g)
    (hnofac : ∀ f, Triple.mk ctx (V3 "requiresFacility") f ∉ g) :
    ctxTriples g plan4 ctx =
      [⟨plan4, V4 "requiresFacility", get_v4_iri ctx⟩] := by
  simp only [ctxTriples]
  rw [if_pos (mem_objects.mpr hloc), if_neg (fun h =>
    match objects_ne_nil.mp h with
    | ⟨f, hf⟩ => hnofac f hf)]

lemma ctxTriples_tool_wrapped {g : Graph} {plan4 ctx : Term}
    (hnoloc : Triple.mk ctx RDF_type (V3 "LocationContext") ∉ g)
    (htool : Triple.mk ctx RDF_type (V3 "ToolContext") ∈ g)
    (hart : ∃ a, Triple.mk ctx (V3 "requiresArtifact") a ∈ g) :
    ctxTriples g plan4 ctx =
      (objects g ctx (V3 "requiresArtifact")).map
        (fun a => ⟨plan4, V4 "requiresArtifact", a⟩) := by
  simp only [ctxTriples]
  rw [if_neg (fun h => hnoloc (mem_objects.mp h)),
    if_pos (mem_objects.mpr htool), if_pos (objects_ne_nil.mpr hart)]

lemma ctxTriples_tool_fallback {g : Graph} {plan4 ctx : Term}
    (hnoloc : Triple.mk ctx RDF_type (V3 "LocationContext") ∉ g)
    (htool : Triple.mk ctx RDF_type (V3 "ToolContext") ∈ g)
    (hnoart : ∀ a, Triple.mk ctx (V3 "requiresArtifact") a ∉ g) :
    ctxTriples g plan4 ctx =
      [⟨plan4, V4 "requiresArtifact", get_v4_iri ctx⟩] := by
  simp only [ctxTriples]
  rw [if_neg (fun h => hnoloc (mem_objects.mp h)),
    if_pos (mem_objects.mpr htool), if_neg (fun h =>
      match objects_ne_nil.mp h with
      | ⟨a, ha⟩ => hnoart a ha)]

lemma ctxTriples_social_wrapped {g : Graph} {plan4 ctx : Term}
    (hnoloc : Triple.mk ctx RDF_type (V3 "LocationContext") ∉ g)
    (hnotool : Triple.mk ctx RDF_type (V3 "ToolContext") ∉ g)
    (hsoc : Triple.mk ctx RDF_type (V3 "SocialContext") ∈ g)
    (hag : ∃ a, Triple.mk ctx (V3 "requiresAgent") a ∈ g) :
    ctxTriples g plan4 ctx =
      (objects g ctx (V3 "requiresAgent")).map
        (fun a => ⟨plan4, V4 "requiresAgent", a⟩) := by
  simp only [ctxTriples]
  rw [if_neg (fun h => hnoloc (mem_objects.mp h)),
    if_neg (fun h => hnotool (mem_objects.mp h)),
    if_pos (mem_objects.mpr hsoc), if_pos (objects_ne_nil.mpr hag)]

lemma ctxTriples_social_fallback {g : Graph} {plan4 ctx : Term}
    (hnoloc : Triple.mk ctx RDF_type (V3 "LocationContext") ∉ g)
    (hnotool : Triple.mk ctx RDF_type (V3 "ToolContext") ∉ g)
    (hsoc : Triple.mk ctx RDF_type (V3 "SocialContext") ∈ g)
    (hnoag : ∀ a, Triple.mk ctx (V3 "requiresAgent") a ∉ g) :
    ctxTriples g plan4 ctx =
      [⟨plan4, V4 "requiresAgent", get_v4_iri ctx⟩] := by
  simp only [ctxTriples]
  rw [if_neg (fun h => hnoloc (mem_objects.mp h)),
    if_neg (fun h => hnotool (mem_objects.mp h)),
    if_pos (mem_objects.mpr hsoc), if_neg (fun h =>
      match objects_ne_nil.mp h with
      | ⟨a, ha⟩ => hnoag a ha)]

lemma plan_emits_ctx {g : Graph} {plan ctx : Term} {t : Triple}
    (hctx : Triple.mk plan (V3 "requiresContext") ctx ∈ g ∨
            Triple.mk plan (V3 "hasContext") ctx ∈ g)
    (ht : t ∈ ctxTriples g (get_v4_iri plan) ctx) :
    t ∈ migrate_action_plan g plan :=
  mem_migrate_action_plan.mpr (Or.inr (Or.inr (Or.inr (Or.inr ⟨ctx, hctx, ht⟩))))

/-- C3: the context tie-break of the Plan transformer — for a Location-kind
context attached to a Plan, the context's contribution is exactly the
`requiresFacility` links to the wrapped facilities when at least one exists
(so no link to the context's own rewritten identifier from this context), and
exactly the single link to the rewritten context identifier otherwise — never
both; symmetrically for Tool-kind via `requiresArtifact` and Social-kind via
`requiresAgent` (kinds are resolved in the source's Location/Tool/Social
order, so the later kinds assume the earlier type tags are absent). -/
theorem spec_c3_context_never_both (g : Graph) (plan ctx : Term)
    (hctx : Triple.mk plan (V3 "requiresContext") ctx ∈ g ∨
            Triple.mk plan (V3 "hasContext") ctx ∈ g) :
    (Triple.mk ctx RDF_type (V3 "LocationContext") ∈ g →
      ((∃ f, Triple.mk ctx (V3 "requiresFacility") f ∈ g) →
        ctxTriples g (get_v4_iri plan) ctx =
          (objects g ctx (V3 "requiresFacility")).map
            (fun f => ⟨get_v4_iri plan, V4 "requiresFacility", f⟩) ∧
        ∀ f, Triple.mk ctx (V3 "requiresFacility") f ∈ g →
          Triple.mk (get_v4_iri plan) (V4 "requiresFacility") f ∈
            migrate_action_plan g plan) ∧
      ((∀ f, Triple.mk ctx (V3 "requiresFacility") f ∉ g) →
        ctxTriples g (get_v4_iri plan) ctx =
          [⟨get_v4_iri plan, V4 "requiresFacility", get_v4_iri ctx⟩] ∧
        Triple.mk (get_v4_iri plan) (V4 "requiresFacility") (get_v4_iri ctx) ∈
          migrate_action_plan g plan)) ∧
    (Triple.mk ctx RDF_type (V3 "LocationContext") ∉ g →
     Triple.mk ctx RDF_type (V3 "ToolContext") ∈ g →
      ((∃ a, Triple.mk ctx (V3 "requiresArtifact") a ∈ g) →
        ctxTriples g (get_v4_iri plan) ctx =
          (objects g ctx (V3 "requiresArtifact")).map
            (fun a => ⟨get_v4_iri plan, V4 "requiresArtifact", a⟩) ∧
        ∀ a, Triple.mk ctx (V3 "requiresArtifact") a ∈ g →
          Triple.mk (get_v4_iri plan) (V4 "requiresArtifact") a ∈
            migrate_action_plan g plan) ∧
      ((∀ a, Triple.mk ctx (V3 "requiresArtifact") a ∉ g) →
        ctxTriples g (get_v4_iri plan) ctx =
          [⟨get_v4_iri plan, V4 "requiresArtifact", get_v4_iri ctx⟩] ∧
        Triple.mk (get_v4_iri plan) (V4 "requiresArtifact") (get_v4_iri ctx) ∈
          migrate_action_plan g plan)) ∧
    (Triple.mk ctx RDF_type (V3 "LocationContext") ∉ g →
     Triple.mk ctx RDF_type (V3 "ToolContext") ∉ g →
     Triple.mk ctx RDF_type (V3 "SocialContext") ∈ g →
      ((∃ a, Triple.mk ctx (V3 "requiresAgent") a ∈ g) →
        ctxTriples g (get_v4_iri plan) ctx =
          (objects g ctx (V3 "requiresAgent")).map
            (fun a => ⟨get_v4_iri plan, V4 "requiresAgent", a⟩) ∧
        ∀ a, Triple.mk ctx (V3 "requiresAgent") a ∈ g →
          Triple.mk (get_v4_iri plan) (V4 "requiresAgent") a ∈
            migrate_action_plan g plan) ∧
      ((∀ a, Triple.mk ctx (V3 "requiresAgent") a ∉ g) →
        ctxTriples g (get_v4_iri plan) ctx =
          [⟨get_v4_iri plan, V4 "requiresAgent", get_v4_iri ctx⟩] ∧
        Triple.mk (get_v4_iri plan) (V4 "requiresAgent") (get_v4_iri ctx) ∈
          migrate_action_plan g plan)) := by
  refine ⟨fun hloc => ⟨fun hfac => ⟨ctxTriples_loc_wrapped hloc hfac, ?_⟩,
      fun hno => ⟨ctxTriples_loc_fallback hloc hno, ?_⟩⟩,
    fun hnoloc htool => ⟨fun hart =>
        ⟨ctxTriples_tool_wrapped hnoloc htool hart, ?_⟩,
      fun hno => ⟨ctxTriples_tool_fallback hnoloc htool hno, ?_⟩⟩,
    fun hnoloc hnotool hsoc => ⟨fun hag =>
        ⟨ctxTriples_social_wrapped hnoloc hnotool hsoc hag, ?_⟩,
      fun hno => ⟨ctxTriples_social_fallback hnoloc hnotool hsoc hno, ?_⟩⟩⟩
  · intro f hf
    refine plan_emits_ctx hctx ?_
    rw [ctxTriples_loc_wrapped hloc hfac]
    exact List.mem_map.mpr ⟨f, mem_objects.mpr hf, rfl⟩
  · refine plan_emits_ctx hctx ?_
    rw [ctxTriples_loc_fallback hloc hno]
    exact List.mem_singleton.mpr rfl
  · intro a ha
    refine plan_emits_ctx hctx ?_
    rw [ctxTriples_tool_wrapped hnoloc htool hart]
    exact List.mem_map.mpr ⟨a, mem_objects.mpr ha, rfl⟩
  · refine plan_emits_ctx hctx ?_
    rw [ctxTriples_tool_fallback hnoloc htool hno]
    exact List.mem_singleton.mpr rfl
  · intro a ha
    refine plan_emits_ctx hctx ?_
    rw [ctxTriples_social_wrapped hnoloc hnotool hsoc hag]
    exact List.mem_map.mpr ⟨a, mem_objects.mpr ha, rfl⟩
  · refine plan_emits_ctx hctx ?_
    rw [ctxTriples_social_fallback hnoloc hnotool hsoc hno]
    exact List.mem_singleton.mpr rfl

/-- Witness for C3 on the context fixture: the wrapped case links to the
facility, the facility-less case links to the rewritten context itself. -/
theorem spec_c3_witness :
    Triple.mk (get_v4_iri (V3 "planA")) (V4 "requiresFacility")
        (V3 "officeFacility") ∈ migrate_action_plan gCtx (V3 "planA") ∧
    Triple.mk (get_v4_iri (V3 "planB")) (V4 "requiresFacility")
        (get_v4_iri (V3 "ctxB")) ∈ migrate_action_plan gCtx (V3 "planB") :=
  ⟨(((spec_c3_context_never_both gCtx (V3 "planA") (V3 "ctxA")
        (Or.inl (by decide))).1 (by decide)).1
      ⟨V3 "officeFacility", by decide⟩).2 (V3 "officeFacility") (by decide),
   (((spec_c3_context_never_both gCtx (V3 "planB") (V3 "ctxB")
        (Or.inl (by decide))).1 (by decide)).2
      (fun f hf => absurd ⟨rfl, rfl⟩
        ((by decide : ∀ t ∈ gCtx,
          ¬(t.s = V3 "ctxB" ∧ t.p = V3 "requiresFacility")) _ hf))).2⟩

/-- C10: when a Location/Tool/Social-kind context wraps resources, the Plan
transformer emits the wrapped identifiers verbatim (no v3→v4 rewriting, even
for v3-namespace identifiers): the context's `requires-*` links are exactly
the wrapped objects, so the rewritten context identifier appears only in the
non-wrapped fallback case. -/
theorem spec_c10_wrapped_verbatim (g : Graph) (plan ctx : Term)
    (hctx : Triple.mk plan (V3 "requiresContext") ctx ∈ g ∨
            Triple.mk plan (V3 "hasContext") ctx ∈ g) :
    (Triple.mk ctx RDF_type (V3 "LocationContext") ∈ g →
      (∃ f, Triple.mk ctx (V3 "requiresFacility") f ∈ g) →
      (∀ f, Triple.mk ctx (V3 "requiresFacility") f ∈ g →
        Triple.mk (get_v4_iri plan) (V4 "requiresFacility") f ∈
          migrate_action_plan g plan) ∧
      (∀ x, Triple.mk (get_v4_iri plan) (V4 "requiresFacility") x ∈
          ctxTriples g (get_v4_iri plan) ctx ↔
        Triple.mk ctx (V3 "requiresFacility") x ∈ g)) ∧
    (Triple.mk ctx RDF_type (V3 "LocationContext") ∉ g →
     Triple.mk ctx RDF_type (V3 "ToolContext") ∈ g →
      (∃ a, Triple.mk ctx (V3 "requiresArtifact") a ∈ g) →
      (∀ a, Triple.mk ctx (V3 "requiresArtifact") a ∈ g →
        Triple.mk (get_v4_iri plan) (V4 "requiresArtifact") a ∈
          migrate_action_plan g plan) ∧
      (∀ x, Triple.mk (get_v4_iri plan) (V4 "requiresArtifact") x ∈
          ctxTriples g (get_v4_iri plan) ctx ↔
        Triple.mk ctx (V3 "requiresArtifact") x ∈ g)) ∧
    (Triple.mk ctx RDF_type (V3 "LocationContext") ∉ g →
     Triple.mk ctx RDF_type (V3 "ToolContext") ∉ g →
     Triple.mk ctx RDF_type (V3 "SocialContext") ∈ g →
      (∃ a, Triple.mk ctx (V3 "requiresAgent") a ∈ g) →
      (∀ a, Triple.mk ctx (V3 "requiresAgent") a ∈ g →
        Triple.mk (get_v4_iri plan) (V4 "requiresAgent") a ∈
          migrate_action_plan g plan) ∧
      (∀ x, Triple.mk (get_v4_iri plan) (V4 "requiresAgent") x ∈
          ctxTriples g (get_v4_iri plan) ctx ↔
        Triple.mk ctx (V3 "requiresAgent") x ∈ g)) := by
  refine ⟨fun hloc hfac => ⟨?_, ?_⟩, fun hnoloc htool hart => ⟨?_, ?_⟩,
    fun hnoloc hnotool hsoc hag => ⟨?_, ?_⟩⟩
  · intro f hf
    refine plan_emits_ctx hctx ?_
    rw [ctxTriples_loc_wrapped hloc hfac]
    exact List.mem_map.mpr ⟨f, mem_objects.mpr hf, rfl⟩
  · intro x
    rw [ctxTriples_loc_wrapped hloc hfac]
    simp only [List.mem_map, mem_objects, Triple.mk.injEq]
    constructor
    · rintro ⟨f, hf, _, _, rfl⟩
      exact hf
    · intro hx
      exact ⟨x, hx, trivial, trivial, rfl⟩
  · intro a ha
    refine plan_emits_ctx hctx ?_
    rw [ctxTriples_tool_wrapped hnoloc htool hart]
    exact List.mem_map.mpr ⟨a, mem_objects.mpr ha, rfl⟩
  · intro x
    rw [ctxTriples_tool_wrapped hnoloc htool hart]
    simp only [List.mem_map, mem_objects, Triple.mk.injEq]
    constructor
    · rintro ⟨a, ha, _, _, rfl⟩
      exact ha
    · intro hx
      exact ⟨x, hx, trivial, trivial, rfl⟩
  · intro a ha
    refine plan_emits_ctx hctx ?_
    rw [ctxTriples_social_wrapped hnoloc hnotool hsoc hag]
    exact List.mem_map.mpr ⟨a, mem_objects.mpr ha, rfl⟩
  · intro x
    rw [ctxTriples_social_wrapped hnoloc hnotool hsoc hag]
    simp only [List.mem_map, mem_objects, Triple.mk.injEq]
    constructor
    · rintro ⟨a, ha, _, _, rfl⟩
      exact ha
    · intro hx
      exact ⟨x, hx, trivial, trivial, rfl⟩

/-- Witness for C10: the wrapped facility identifier, although it lies in the
v3 namespace, is linked verbatim, and its rewritten form is not linked. -/
theorem spec_c10_witness :
    Triple.mk (get_v4_iri (V3 "planA")) (V4 "requiresFacility")
        (V3 "officeFacility") ∈ migrate_action_plan gCtx (V3 "planA") ∧
    ¬ Triple.mk (get_v4_iri (V3 "planA")) (V4 "requiresFacility")
        (get_v4_iri (V3 "officeFacility")) ∈
      ctxTriples gCtx (get_v4_iri (V3 "planA")) (V3 "ctxA") :=
  ⟨((spec_c10_wrapped_verbatim gCtx (V3 "planA") (V3 "ctxA")
      (Or.inl (by decide))).1 (by decide) ⟨V3 "officeFacility", by decide⟩).1
      (V3 "officeFacility") (by decide),
   fun hmem =>
    absurd (((spec_c10_wrapped_verbatim gCtx (V3 "planA") (V3 "ctxA")
      (Or.inl (by decide))).1 (by decide)
        ⟨V3 "officeFacility", by decide⟩).2 _ |>.mp hmem) (by decide)⟩

/-- C1 (counterexample): on the specification's own two-Plan scenario the
Objective's label triple does not occur exactly once per distinct slug — the
two raw texts `"Home Renovation"` and `"Home Renovation "` share the slug
`home_renovation` but produce two distinct label triples, so the label count
at the single Objective is 2, not 1 (both Plans do link to that single
Objective). -/
theorem spec_c1_counterexample :
    ((full_migration gScenario).out.countP
      (fun t => t.s == objective_iri "Home Renovation".data
        && t.p == RDFS_label)) = 2 ∧
    ¬ ((full_migration gScenario).out.countP
      (fun t => t.s == objective_iri "Home Renovation".data
        && t.p == RDFS_label)) = 1 ∧
    Triple.mk (get_v4_iri (V3 "plan1")) (V4 "hasObjective")
      (objective_iri "Home Renovation".data) ∈
      (full_migration gScenario).out ∧
    Triple.mk (get_v4_iri (V3 "plan2")) (V4 "hasObjective")
      (objective_iri "Home Renovation".data) ∈
      (full_migration gScenario).out := by decide

/-- C1 (amended): for every Plan with a project label, the run's output
contains the Objective's type triple exactly once per distinct slug, a label
triple carrying the literal project text exactly once per distinct literal
text (a slug shared by differently written labels carries one label triple
per raw text), and a `hasObjective` link from the rewritten Plan to the
single slug-determined Objective identifier; the output is duplicate-free. -/
theorem spec_c1_objective_emission (g : Graph) (plan proj : Term)
    (hproj : Triple.mk plan (V3 "hasProject") proj ∈ g)
    (hplan : ∃ sc ∈ plan_subclasses, Triple.mk plan RDF_type sc ∈ g) :
    Triple.mk (objective_iri proj.strVal) RDF_type (CCO "ont00000476") ∈
      (full_migration g).out ∧
    Triple.mk (objective_iri proj.strVal) RDFS_label (Term.lit proj.strVal) ∈
      (full_migration g).out ∧
    Triple.mk (get_v4_iri plan) (V4 "hasObjective")
      (objective_iri proj.strVal) ∈ (full_migration g).out ∧
    (full_migration g).out.Nodup ∧
    List.count (Triple.mk (objective_iri proj.strVal) RDF_type
      (CCO "ont00000476")) (full_migration g).out = 1 ∧
    List.count (Triple.mk (objective_iri proj.strVal) RDFS_label
      (Term.lit proj.strVal)) (full_migration g).out = 1 := by
  have hpl := mem_discoverPlans.mpr hplan
  have h1 : Triple.mk (objective_iri proj.strVal) RDF_type
      (CCO "ont00000476") ∈ (full_migration g).out :=
    mem_full_out.mpr (Or.inl ⟨plan, hpl, mem_migrate_action_plan.mpr
      (Or.inr (Or.inr (Or.inr (Or.inl ⟨proj, hproj,
        List.mem_cons_self _ _⟩))))⟩)
  have h2 : Triple.mk (objective_iri proj.strVal) RDFS_label
      (Term.lit proj.strVal) ∈ (full_migration g).out :=
    mem_full_out.mpr (Or.inl ⟨plan, hpl, mem_migrate_action_plan.mpr
      (Or.inr (Or.inr (Or.inr (Or.inl ⟨proj, hproj,
        List.mem_cons_of_mem _ (List.mem_cons_self _ _)⟩))))⟩)
  have h3 : Triple.mk (get_v4_iri plan) (V4 "hasObjective")
      (objective_iri proj.strVal) ∈ (full_migration g).out :=
    mem_full_out.mpr (Or.inl ⟨plan, hpl, mem_migrate_action_plan.mpr
      (Or.inr (Or.inr (Or.inr (Or.inl ⟨proj, hproj,
        List.mem_cons_of_mem _ (List.mem_cons_of_mem _
          (List.mem_cons_self _ _))⟩))))⟩)
  have hnd := nodup_full_out g
  have hcount : ∀ u : Triple, u ∈ (full_migration g).out →
      List.count u (full_migration g).out = 1 := by
    intro u hu
    have hle := List.nodup_iff_count_le_one.mp hnd u
    have hpos := List.count_pos_iff.mpr hu
    omega
  exact ⟨h1, h2, h3, hnd, hcount _ h1, hcount _ h2⟩

/-- Witness for C1 (amended) on the scenario fixture. -/
theorem spec_c1_witness :
    Triple.mk (V3 "plan1") (V3 "hasProject")
        (Term.lit "Home Renovation".data) ∈ gScenario ∧
    Triple.mk (objective_iri "Home Renovation".data) RDF_type
        (CCO "ont00000476") ∈ (full_migration gScenario).out ∧
    List.count (Triple.mk (objective_iri "Home Renovation".data) RDF_type
      (CCO "ont00000476")) (full_migration gScenario).out = 1 :=
  ⟨by decide,
   (spec_c1_objective_emission gScenario (V3 "plan1")
      (Term.lit "Home Renovation".data) (by decide)
      ⟨V3 "RootActionPlan", by decide, by decide⟩).1,
   (spec_c1_objective_emission gScenario (V3 "plan1")
      (Term.lit "Home Renovation".data) (by decide)
      ⟨V3 "RootActionPlan", by decide, by decide⟩).2.2.2.2.1⟩

lemma safe_name_eq_map (s : List Char) :
    safe_name s = (stripWs (s.map Char.toLower)).map sepU := by
  unfold safe_name replaceChar
  rw [List.map_map, List.map_map]
  refine List.map_congr_left ?_
  intro c _
  show (fun c => if c = '\\' then '_' else c)
    ((fun c => if c = '/' then '_' else c)
      ((fun c => if c = ' ' then '_' else c) c)) = sepU c
  unfold sepU
  by_cases h1 : c = ' '
  · subst h1
    rfl
  · by_cases h2 : c = '/'
    · subst h2
      rfl
    · by_cases h3 : c = '\\'
      · subst h3
        rfl
      · simp only [if_neg h1, if_neg h2, if_neg h3]

lemma sepU_char_agree {c d : Char}
    (h : (c == d || (sepCharB c && sepCharB d)) = true) : sepU c = sepU d := by
  rcases Bool.or_eq_true _ _ ▸ h with heq | hsep
  · rw [beq_iff_eq.mp heq]
  · obtain ⟨hc, hd⟩ := Bool.and_eq_true _ _ ▸ hsep
    have hc' : (c = ' ' ∨ c = '/') ∨ c = '\\' := by
      simpa [sepCharB, Bool.or_eq_true, decide_eq_true_eq] using hc
    have hd' : (d = ' ' ∨ d = '/') ∨ d = '\\' := by
      simpa [sepCharB, Bool.or_eq_true, decide_eq_true_eq] using hd
    have hcu : sepU c = '_' := by
      rcases hc' with (rfl | rfl) | rfl <;> rfl
    have hdu : sepU d = '_' := by
      rcases hd' with (rfl | rfl) | rfl <;> rfl
    rw [hcu, hdu]

lemma sepAgree_map_sepU :
    ∀ s1 s2 : List Char, sepAgree s1 s2 = true →
      s1.map sepU = s2.map sepU := by
  intro s1
  induction s1 with
  | nil =>
    intro s2 h
    cases s2 with
    | nil => rfl
    | cons d ds => exact Bool.noConfusion h
  | cons c cs ih =>
    intro s2 h
    cases s2 with
    | nil => exact Bool.noConfusion h
    | cons d ds =>
      have h' : ((c == d || (sepCharB c && sepCharB d)) &&
          sepAgree cs ds) = true := h
      obtain ⟨h1, h2⟩ := Bool.and_eq_true _ _ ▸ h'
      show sepU c :: cs.map sepU = sepU d :: ds.map sepU
      rw [sepU_char_agree h1, ih ds h2]

/-- C4 (counterexample): the claim's label relation, read literally, relates
`"a "` (trailing space) and `"a/"` (trailing slash) — they differ only in one
position holding a space versus a slash — yet the stripping step removes the
trailing space while the slash is converted to an underscore, so the two
Plans reference different Objective identifiers (`urn:objective:a` versus
`urn:objective:a_`). -/
theorem spec_c4_counterexample :
    textEquiv "a ".data "a/".data ∧
    Triple.mk (get_v4_iri (V3 "planA")) (V4 "hasObjective")
        (objective_iri "a ".data) ∈ migrate_action_plan gSep (V3 "planA") ∧
    ((migrate_action_plan gSep (V3 "planB")).filter
        (fun t => t.p == V4 "hasObjective")) =
      [⟨get_v4_iri (V3 "planB"), V4 "hasObjective",
        objective_iri "a/".data⟩] ∧
    objective_iri "a ".data ≠ objective_iri "a/".data := by
  refine ⟨⟨[], [], [], [], "a ".data, "a/".data,
    fun c hc => absurd hc (List.not_mem_nil c),
    fun c hc => absurd hc (List.not_mem_nil c),
    fun c hc => absurd hc (List.not_mem_nil c),
    fun c hc => absurd hc (List.not_mem_nil c),
    by simp, by simp, by decide⟩, by decide, by decide, by decide⟩

/-- C4 (amended): any two Plans whose project-label texts, after lowercasing
and stripping leading/trailing whitespace, agree positionwise up to the
choice of `/`, `\`, or space in separator positions, are linked to the same
Objective identifier by the Plan transformer (leading/trailing whitespace
and letter case are absorbed by the strip and lowercase steps; a separator
adjacent to the stripped region is the one divergence the code has, witness
the counterexample). -/
theorem spec_c4_slug_agreement (g g' : Graph) (p1 p2 t1 t2 : Term)
    (h1 : Triple.mk p1 (V3 "hasProject") t1 ∈ g)
    (h2 : Triple.mk p2 (V3 "hasProject") t2 ∈ g')
    (hsep : sepAgree (stripWs (t1.strVal.map Char.toLower))
      (stripWs (t2.strVal.map Char.toLower)) = true) :
    objective_iri t1.strVal = objective_iri t2.strVal ∧
    Triple.mk (get_v4_iri p1) (V4 "hasObjective")
      (objective_iri t1.strVal) ∈ migrate_action_plan g p1 ∧
    Triple.mk (get_v4_iri p2) (V4 "hasObjective")
      (objective_iri t1.strVal) ∈ migrate_action_plan g' p2 := by
  have hsafe : safe_name t1.strVal = safe_name t2.strVal := by
    rw [safe_name_eq_map, safe_name_eq_map]
    exact sepAgree_map_sepU _ _ hsep
  have hobj : objective_iri t1.strVal = objective_iri t2.strVal := by
    unfold objective_iri
    rw [hsafe]
  refine ⟨hobj, ?_, ?_⟩
  · apply mem_migrate_action_plan.mpr
    refine Or.inr (Or.inr (Or.inr (Or.inl ⟨t1, h1, ?_⟩)))
    unfold projectTriples
    exact List.mem_cons_of_mem _
      (List.mem_cons_of_mem _ (List.mem_cons_self _ _))
  · apply mem_migrate_action_plan.mpr
    refine Or.inr (Or.inr (Or.inr (Or.inl ⟨t2, h2, ?_⟩)))
    rw [hobj]
    unfold projectTriples
    exact List.mem_cons_of_mem _
      (List.mem_cons_of_mem _ (List.mem_cons_self _ _))

/-- Witness for C4 (amended): `"Home Renovation"` and `" HOME/renovation "`
agree after lowercasing, stripping, and separator interchange, and both Plans
link to `urn:objective:home_renovation`. -/
theorem spec_c4_witness :
    sepAgree
      (stripWs (("Home Renovation".data).map Char.toLower))
      (stripWs ((" HOME/renovation ".data).map Char.toLower)) = true ∧
    objective_iri "Home Renovation".data =
      objective_iri " HOME/renovation ".data ∧
    Triple.mk (get_v4_iri (V3 "plan1")) (V4 "hasObjective")
      (objective_iri "Home Renovation".data) ∈
      migrate_action_plan gScenario (V3 "plan1") :=
  ⟨by decide,
   (spec_c4_slug_agreement gScenario
      [⟨V3 "plan9", V3 "hasProject", Term.lit " HOME/renovation ".data⟩]
      (V3 "plan1") (V3 "plan9")
      (Term.lit "Home Renovation".data) (Term.lit " HOME/renovation ".data)
      (by decide)
      (by decide)
      (by decide)).1,
   (spec_c4_slug_agreement gScenario gScenario (V3 "plan1") (V3 "plan1")
      (Term.lit "Home Renovation".data) (Term.lit "Home Renovation".data)
      (by decide) (by decide) (by decide)).2.1⟩

lemma ctxTriples_inv {g g' : Graph} (hg : ∀ u : Triple, u ∈ g ↔ u ∈ g')
    (plan4 c : Term) (t : Triple) :
    t ∈ ctxTriples g plan4 c ↔ t ∈ ctxTriples g' plan4 c := by
  have hty : ∀ x : Term,
      (x ∈ objects g c RDF_type) ↔ (x ∈ objects g' c RDF_type) :=
    fun x => mem_objects.trans ((hg _).trans mem_objects.symm)
  have hobj : ∀ p x, (x ∈ objects g c p) ↔ (x ∈ objects g' c p) :=
    fun p x => mem_objects.trans ((hg _).trans mem_objects.symm)
  have hne : ∀ p, (objects g c p ≠ []) ↔ (objects g' c p ≠ []) := by
    intro p
    rw [objects_ne_nil, objects_ne_nil]
    exact exists_congr fun x => hg _
  have hmap : ∀ (p : Term) (fn : Term → Triple),
      (t ∈ (objects g c p).map fn) ↔ (t ∈ (objects g' c p).map fn) := by
    intro p fn
    simp only [List.mem_map]
    exact exists_congr fun x => and_congr_left fun _ => hobj p x
  simp only [ctxTriples]
  by_cases hL : V3 "LocationContext" ∈ objects g c RDF_type
  · rw [if_pos hL, if_pos ((hty _).mp hL)]
    by_cases hF : objects g c (V3 "requiresFacility") ≠ []
    · rw [if_pos hF, if_pos ((hne _).mp hF)]
      exact hmap _ _
    · rw [if_neg hF, if_neg (fun h => hF ((hne _).mpr h))]
  · rw [if_neg hL, if_neg (fun h => hL ((hty _).mpr h))]
    by_cases hT : V3 "ToolContext" ∈ objects g c RDF_type
    · rw [if_pos hT, if_pos ((hty _).mp hT)]
      by_cases hA : objects g c (V3 "requiresArtifact") ≠ []
      · rw [if_pos hA, if_pos ((hne _).mp hA)]
        exact hmap _ _
      · rw [if_neg hA, if_neg (fun h => hA ((hne _).mpr h))]
    · rw [if_neg hT, if_neg (fun h => hT ((hty _).mpr h))]
      by_cases hS : V3 "SocialContext" ∈ objects g c RDF_type
      · rw [if_pos hS, if_pos ((hty _).mp hS)]
        by_cases hAg : objects g c (V3 "requiresAgent") ≠ []
        · rw [if_pos hAg, if_pos ((hne _).mp hAg)]
          exact hmap _ _
        · rw [if_neg hAg, if_neg (fun h => hAg ((hne _).mpr h))]
      · rw [if_neg hS, if_neg (fun h => hS ((hty _).mpr h))]
        by_cases hE : V3 "EnergyContext" ∈ objects g c RDF_type
        · rw [if_pos hE, if_pos ((hty _).mp hE)]
        · rw [if_neg hE, if_neg (fun h => hE ((hty _).mpr h))]

lemma plan_inv {g g' : Graph} (hg : ∀ u : Triple, u ∈ g ↔ u ∈ g')
    (plan : Term) (t : Triple) :
    t ∈ migrate_action_plan g plan ↔ t ∈ migrate_action_plan g' plan := by
  have hg' : ∀ u : Triple, (u ∈ g) = (u ∈ g') := fun u => propext (hg u)
  have hctx : ∀ p4 c, (t ∈ ctxTriples g p4 c) = (t ∈ ctxTriples g' p4 c) :=
    fun p4 c => propext (ctxTriples_inv hg p4 c t)
  rw [mem_migrate_action_plan, mem_migrate_action_plan]
  simp only [hg', hctx]

lemma process_inv {g g' : Graph} (hg : ∀ u : Triple, u ∈ g ↔ u ∈ g')
    (proc : Term) (t : Triple) :
    t ∈ migrate_action_process g proc ↔
      t ∈ migrate_action_process g' proc := by
  have hg' : ∀ u : Triple, (u ∈ g) = (u ∈ g') := fun u => propext (hg u)
  rw [mem_migrate_action_process, mem_migrate_action_process]
  simp only [hg']

lemma milestone_inv {g g' : Graph} (hg : ∀ u : Triple, u ∈ g ↔ u ∈ g')
    (ms : Term) (t : Triple) :
    t ∈ migrate_milestone g ms ↔ t ∈ migrate_milestone g' ms := by
  have hg' : ∀ u : Triple, (u ∈ g) = (u ∈ g') := fun u => propext (hg u)
  rw [mem_migrate_milestone, mem_migrate_milestone]
  simp only [hg']

lemma ctxNewType_inv {g g' : Graph} (hg : ∀ u : Triple, u ∈ g ↔ u ∈ g')
    (c : Term) :
    ctxNewType (objects g c RDF_type) = ctxNewType (objects g' c RDF_type) := by
  have hty : ∀ x : Term,
      (x ∈ objects g c RDF_type) = (x ∈ objects g' c RDF_type) :=
    fun x => propext (mem_objects.trans ((hg _).trans mem_objects.symm))
  unfold ctxNewType
  simp only [hty]

lemma ctx_entity_inv {g g' : Graph} (hg : ∀ u : Triple, u ∈ g ↔ u ∈ g')
    (c : Term) (t : Triple) :
    (∃ h, migrate_context_entity g c = some h ∧ t ∈ h) ↔
    (∃ h, migrate_context_entity g' c = some h ∧ t ∈ h) := by
  have hg' : ∀ u : Triple, (u ∈ g) = (u ∈ g') := fun u => propext (hg u)
  have hnt := ctxNewType_inv hg c
  cases hnt2 : ctxNewType (objects g c RDF_type) with
  | none =>
    have h1 : migrate_context_entity g c = none := by
      simp only [migrate_context_entity]
      rw [hnt2]
    have h2 : migrate_context_entity g' c = none := by
      simp only [migrate_context_entity]
      rw [← hnt, hnt2]
    simp [h1, h2]
  | some nt =>
    have h1 : migrate_context_entity g c = some (migrate_properties
        (addT [] ⟨get_v4_iri c, RDF_type, nt⟩) (get_v4_iri c) g c
        [V3 "requiresFacility", V3 "requiresArtifact", V3 "requiresAgent",
         RDF_type]) := by
      simp only [migrate_context_entity]
      rw [hnt2]
    have h2 : migrate_context_entity g' c = some (migrate_properties
        (addT [] ⟨get_v4_iri c, RDF_type, nt⟩) (get_v4_iri c) g' c
        [V3 "requiresFacility", V3 "requiresArtifact", V3 "requiresAgent",
         RDF_type]) := by
      simp only [migrate_context_entity]
      rw [← hnt, hnt2]
    have hX : ∀ u : Triple,
        u ∈ migrate_properties (addT [] ⟨get_v4_iri c, RDF_type, nt⟩)
          (get_v4_iri c) g c
          [V3 "requiresFacility", V3 "requiresArtifact", V3 "requiresAgent",
           RDF_type] ↔
        u ∈ migrate_properties (addT [] ⟨get_v4_iri c, RDF_type, nt⟩)
          (get_v4_iri c) g' c
          [V3 "requiresFacility", V3 "requiresArtifact", V3 "requiresAgent",
           RDF_type] := by
      intro u
      rw [mem_migrate_properties, mem_migrate_properties]
      simp only [hg']
    rw [h1, h2]
    simp only [Option.some.injEq]
    constructor
    · rintro ⟨h, rfl, ht⟩
      exact ⟨_, rfl, (hX t).mp ht⟩
    · rintro ⟨h, rfl, ht⟩
      exact ⟨_, rfl, (hX t).mpr ht⟩

lemma discover_inv {g g' : Graph} (hg : ∀ u : Triple, u ∈ g ↔ u ∈ g')
    (pl : Term) : pl ∈ discoverPlans g ↔ pl ∈ discoverPlans g' := by
  have hg' : ∀ u : Triple, (u ∈ g) = (u ∈ g') := fun u => propext (hg u)
  rw [mem_discoverPlans, mem_discoverPlans]
  simp only [hg']

/-- C7: the full migration is deterministic as a triple set — any two source
graphs equal as triple sets (in particular the same graph enumerated in any
order, since rdflib iteration order is unspecified) produce output graphs
equal as triple sets and of equal triple count. -/
theorem spec_c7_deterministic (g g' : Graph)
    (hg : ∀ u : Triple, u ∈ g ↔ u ∈ g') :
    (∀ t : Triple, t ∈ (full_migration g).out ↔ t ∈ (full_migration g').out) ∧
    (full_migration g).out.length = (full_migration g').out.length := by
  have hmem : ∀ t : Triple,
      t ∈ (full_migration g).out ↔ t ∈ (full_migration g').out := by
    intro t
    rw [mem_full_out, mem_full_out]
    apply or_congr
    · exact exists_congr fun pl =>
        and_congr (discover_inv hg pl) (plan_inv hg pl t)
    apply or_congr
    · exact exists_congr fun pr => and_congr (hg _) (process_inv hg pr t)
    apply or_congr
    · exact exists_congr fun m => and_congr (hg _) (milestone_inv hg m t)
    · refine exists_congr fun cc => and_congr_right fun _ =>
        exists_congr fun c => and_congr (hg _) ?_
      exact ctx_entity_inv hg c t
  exact ⟨hmem, ((List.perm_ext_iff_of_nodup (nodup_full_out g)
    (nodup_full_out g')).mpr hmem).length_eq⟩

/-- Witness for C7: the scenario source and its reversal produce outputs of
equal triple count, and a specific emitted triple is in both. -/
theorem spec_c7_witness :
    (full_migration gScenario).out.length =
      (full_migration gScenario.reverse).out.length ∧
    (Triple.mk (get_v4_iri (V3 "plan1")) (V4 "hasObjective")
        (objective_iri "Home Renovation".data) ∈
      (full_migration gScenario.reverse).out) :=
  ⟨(spec_c7_deterministic gScenario gScenario.reverse
      (fun u => List.mem_reverse.symm)).2,
   ((spec_c7_deterministic gScenario gScenario.reverse
      (fun u => List.mem_reverse.symm)).1 _).mp (by decide)⟩
